import Mathlib

/-!
Verification development for a P2P stablecoin trading system:
an escrow contract family (`Escrow`, `EscrowWithExpiry`) settling two-party
token trades, and a mock constant-product AMM (`MockPair`, `MockRouter`,
`MockFactory`).

The Solidity contracts are embedded shallowly:
- account and token addresses are `Nat` (0 is the zero address);
- ERC20 balances are a per-token, per-account map; a failed transfer
  (insufficient balance) models a revert;
- every state-changing entry point is a function
  `State → args → Except Err State` (or `Option`): an `.error`/`none`
  result is a revert, i.e. the caller observes the pre-call state
  unchanged (made explicit by `runTx`);
- Solidity 0.8 checked arithmetic on `uint256` is `Nat` arithmetic, with
  explicit failure where the source can underflow (checked subtraction).
-/

set_option linter.unusedVariables false

/-- Per-token, per-account balance map of the external ERC20 ledger:
`b tok acct` is the balance of account `acct` in token `tok`. -/
def Balances : Type := Nat → Nat → Nat

namespace Ledger

/-- Point update of a balance map. -/
def setBal (b : Balances) (tok acct amt : Nat) : Balances :=
  fun t a => if t = tok ∧ a = acct then amt else b t a

/-- ERC20-style transfer of `amt` of token `tok` from `src` to `dst`.
Returns `none` (revert) when the source balance is insufficient, matching
the `SafeERC20` calls in the contracts. -/
def transfer (b : Balances) (tok src dst amt : Nat) : Option Balances :=
  if b tok src < amt then none
  else
    some (setBal (setBal b tok src (b tok src - amt)) tok dst
      ((setBal b tok src (b tok src - amt)) tok dst + amt))

end Ledger

/-! Embedding of `contracts/EscrowWithExpiry.sol`. -/

namespace EW

/-- Revert reasons of `EscrowWithExpiry` (one constructor per distinct
`require` message, plus the OpenZeppelin modifier reverts). -/
inductive Err where
  | enforcedPause
  | expectedPause
  | notOwner
  | invalidToken
  | amountZero
  | priceZero
  | invalidBuyer
  | buyerIsSeller
  | cooldown
  | dailyLimit
  | insufficientBalance
  | notActive
  | notBuyer
  | invalidBusd
  | offerHasExpired
  | notSeller
  | notYetExpired
  | invalidRecipient
  | expiryTooShort
  | expiryTooLong
deriving DecidableEq, Repr

/-- The `Offer` struct of `EscrowWithExpiry.sol`. -/
structure Offer where
  id : Nat
  seller : Nat
  buyer : Nat
  tokenAddress : Nat
  amount : Nat
  priceInBUSD : Nat
  active : Bool
  createdAt : Nat
  expiresAt : Nat
deriving DecidableEq, Repr

/-- The default value of a Solidity `Offer` storage slot: all fields zero.
This is what `_offers[id]` holds for an id that was never created. -/
def zeroOffer : Offer :=
  { id := 0, seller := 0, buyer := 0, tokenAddress := 0, amount := 0,
    priceInBUSD := 0, active := false, createdAt := 0, expiresAt := 0 }

/-- Contract storage of `EscrowWithExpiry`, together with the external
ledger (`bal`) and the contract's own address (`self`).  `offers` is total
with default `zeroOffer`, matching Solidity mapping semantics. -/
structure State where
  self : Nat
  owner : Nat
  offerIdCounter : Nat
  offers : Nat → Offer
  offerExpiryTime : Nat
  lastOfferTime : Nat → Nat
  dailyOfferCount : Nat → Nat
  paused : Bool
  bal : Balances

/-- `DEFAULT_EXPIRY_TIME = 15 minutes` (seconds). -/
def DEFAULT_EXPIRY_TIME : Nat := 900

/-- `MAX_OFFERS_PER_DAY = 50`. -/
def MAX_OFFERS_PER_DAY : Nat := 50

/-- `OFFER_COOLDOWN = 10 seconds`. -/
def OFFER_COOLDOWN : Nat := 10

/-- State right after the constructor runs: counter 0, empty offer map,
expiry time at its 15-minute default, no rate-limit history, not paused. -/
def initState (self owner : Nat) (bal : Balances) : State :=
  { self := self, owner := owner, offerIdCounter := 0,
    offers := fun _ => zeroOffer, offerExpiryTime := DEFAULT_EXPIRY_TIME,
    lastOfferTime := fun _ => 0, dailyOfferCount := fun _ => 0,
    paused := false, bal := bal }

/-- `createOffer(tokenAddress, amount, priceInBUSD, buyer)` called by
`caller` at time `now` (`block.timestamp`).  Mirrors the source: input
validation, cooldown, lazy daily-counter reset keyed on
`_lastOfferTime[msg.sender] + 1 days`, daily cap, rate-limit state update,
escrow deposit transfer, offer storage. -/
def createOffer (st : State) (caller tokenAddress amount priceInBUSD buyer now : Nat) :
    Except Err (Nat × State) :=
  if st.paused then .error .enforcedPause
  else if tokenAddress = 0 then .error .invalidToken
  else if amount = 0 then .error .amountZero
  else if priceInBUSD = 0 then .error .priceZero
  else if buyer = 0 then .error .invalidBuyer
  else if buyer = caller then .error .buyerIsSeller
  else if now < st.lastOfferTime caller + OFFER_COOLDOWN then .error .cooldown
  else if MAX_OFFERS_PER_DAY ≤
      (if st.lastOfferTime caller + 86400 ≤ now then 0 else st.dailyOfferCount caller) then
    .error .dailyLimit
  else
    match Ledger.transfer st.bal tokenAddress caller st.self amount with
    | none => .error .insufficientBalance
    | some b2 =>
      .ok (st.offerIdCounter,
        { st with
          offerIdCounter := st.offerIdCounter + 1
          offers := fun j =>
            if j = st.offerIdCounter then
              { id := st.offerIdCounter, seller := caller, buyer := buyer,
                tokenAddress := tokenAddress, amount := amount,
                priceInBUSD := priceInBUSD, active := true, createdAt := now,
                expiresAt := now + st.offerExpiryTime }
            else st.offers j
          lastOfferTime := fun a => if a = caller then now else st.lastOfferTime a
          dailyOfferCount := fun a =>
            if a = caller then
              (if st.lastOfferTime caller + 86400 ≤ now then 0
               else st.dailyOfferCount caller) + 1
            else st.dailyOfferCount a
          bal := b2 })

/-- Marks offer `offerId` inactive, leaving everything else unchanged
(the `offer.active = false` storage write). -/
def flipInactive (st : State) (offerId : Nat) : State :=
  { st with offers := fun j =>
      if j = offerId then { st.offers offerId with active := false }
      else st.offers j }

/-- The two settlement transfers of `acceptOffer`, in source order: first
BUSD from the buyer (`caller`) to the seller, then the escrowed tokens
from the contract to the buyer.  Runs on the state in which the offer has
already been flipped inactive. -/
def settleTransfers (st : State) (caller busdAddress : Nat) (offer : Offer) :
    Except Err State :=
  match Ledger.transfer st.bal busdAddress caller offer.seller offer.priceInBUSD with
  | none => .error .insufficientBalance
  | some b2 =>
    match Ledger.transfer b2 offer.tokenAddress st.self caller offer.amount with
    | none => .error .insufficientBalance
    | some b3 => .ok { st with bal := b3 }

/-- `acceptOffer(offerId, busdAddress)` called by `caller` at time `now`.
Checks, then flips the status, then performs the two transfers — the flip
strictly precedes both transfers, as in the source. -/
def acceptOffer (st : State) (caller offerId busdAddress now : Nat) : Except Err State :=
  if st.paused then .error .enforcedPause
  else if (st.offers offerId).active = false then .error .notActive
  else if caller ≠ (st.offers offerId).buyer then .error .notBuyer
  else if busdAddress = 0 then .error .invalidBusd
  else if (st.offers offerId).expiresAt < now then .error .offerHasExpired
  else settleTransfers (flipInactive st offerId) caller busdAddress (st.offers offerId)

/-- `cancelOffer(offerId)` called by `caller`: seller-only; flips the
status first, then returns the escrowed tokens to the seller. -/
def cancelOffer (st : State) (caller offerId : Nat) : Except Err State :=
  if st.paused then .error .enforcedPause
  else if (st.offers offerId).active = false then .error .notActive
  else if caller ≠ (st.offers offerId).seller then .error .notSeller
  else
    match Ledger.transfer (flipInactive st offerId).bal
        (st.offers offerId).tokenAddress st.self caller (st.offers offerId).amount with
    | none => .error .insufficientBalance
    | some b2 => .ok { flipInactive st offerId with bal := b2 }

/-- `reclaimExpired(offerId)`: any caller, only after expiry; note the
source has no `whenNotPaused` modifier here.  Tokens go to the seller. -/
def reclaimExpired (st : State) (caller offerId now : Nat) : Except Err State :=
  if (st.offers offerId).active = false then .error .notActive
  else if now ≤ (st.offers offerId).expiresAt then .error .notYetExpired
  else
    match Ledger.transfer (flipInactive st offerId).bal
        (st.offers offerId).tokenAddress st.self (st.offers offerId).seller
        (st.offers offerId).amount with
    | none => .error .insufficientBalance
    | some b2 => .ok { flipInactive st offerId with bal := b2 }

/-- `updateExpiryTime(newExpiryTime)`: owner-only, bounded to
`[1 minutes, 24 hours]` i.e. `[60, 86400]` seconds. -/
def updateExpiryTime (st : State) (caller newExpiryTime : Nat) : Except Err State :=
  if caller ≠ st.owner then .error .notOwner
  else if newExpiryTime < 60 then .error .expiryTooShort
  else if 86400 < newExpiryTime then .error .expiryTooLong
  else .ok { st with offerExpiryTime := newExpiryTime }

/-- `pause()`: owner-only; `_pause` reverts when already paused. -/
def pause (st : State) (caller : Nat) : Except Err State :=
  if caller ≠ st.owner then .error .notOwner
  else if st.paused then .error .enforcedPause
  else .ok { st with paused := true }

/-- `unpause()`: owner-only; `_unpause` reverts when not paused. -/
def unpause (st : State) (caller : Nat) : Except Err State :=
  if caller ≠ st.owner then .error .notOwner
  else if st.paused = false then .error .expectedPause
  else .ok { st with paused := false }

/-- `emergencyWithdraw(token, amount, to)`: owner-only, only while paused. -/
def emergencyWithdraw (st : State) (caller token amount dst : Nat) : Except Err State :=
  if caller ≠ st.owner then .error .notOwner
  else if dst = 0 then .error .invalidRecipient
  else if st.paused = false then .error .expectedPause
  else
    match Ledger.transfer st.bal token st.self dst amount with
    | none => .error .insufficientBalance
    | some b2 => .ok { st with bal := b2 }

/-- `getOffer(offerId)`: raw mapping read, no existence check. -/
def getOffer (st : State) (offerId : Nat) : Offer := st.offers offerId

/-- `isExpired(offerId)` at time `now`: `block.timestamp > offer.expiresAt`. -/
def isExpired (st : State) (offerId now : Nat) : Bool :=
  decide ((st.offers offerId).expiresAt < now)

/-- `getTimeRemaining(offerId)` at time `now`. -/
def getTimeRemaining (st : State) (offerId now : Nat) : Nat :=
  if (st.offers offerId).expiresAt ≤ now then 0
  else (st.offers offerId).expiresAt - now

/-- `getOfferCount()`. -/
def getOfferCount (st : State) : Nat := st.offerIdCounter

/-- EVM transaction semantics: a reverted call leaves the pre-call state
in place; a successful call commits the new state. -/
def runTx (st : State) (f : State → Except Err State) : State :=
  match f st with
  | .ok st2 => st2
  | .error _ => st

/-- One state transition of the contract: any entry point invoked with any
arguments and succeeding, or an external ledger movement that does not
touch contract storage (other accounts moving their own tokens). -/
inductive Step : State → State → Prop where
  | create (st : State) (caller tokenAddress amount priceInBUSD buyer now offerId : Nat)
      (st2 : State) :
      createOffer st caller tokenAddress amount priceInBUSD buyer now = .ok (offerId, st2) →
      Step st st2
  | accept (st : State) (caller offerId busdAddress now : Nat) (st2 : State) :
      acceptOffer st caller offerId busdAddress now = .ok st2 → Step st st2
  | cancel (st : State) (caller offerId : Nat) (st2 : State) :
      cancelOffer st caller offerId = .ok st2 → Step st st2
  | reclaim (st : State) (caller offerId now : Nat) (st2 : State) :
      reclaimExpired st caller offerId now = .ok st2 → Step st st2
  | updateExpiry (st : State) (caller newExpiryTime : Nat) (st2 : State) :
      updateExpiryTime st caller newExpiryTime = .ok st2 → Step st st2
  | doPause (st : State) (caller : Nat) (st2 : State) :
      pause st caller = .ok st2 → Step st st2
  | doUnpause (st : State) (caller : Nat) (st2 : State) :
      unpause st caller = .ok st2 → Step st st2
  | withdraw (st : State) (caller token amount dst : Nat) (st2 : State) :
      emergencyWithdraw st caller token amount dst = .ok st2 → Step st st2
  | externTransfer (st : State) (b : Balances) : Step st { st with bal := b }

/-- States reachable from a freshly constructed contract. -/
inductive Reachable : State → Prop where
  | init (self owner : Nat) (bal : Balances) : Reachable (initState self owner bal)
  | step {st st2 : State} : Reachable st → Step st st2 → Reachable st2

end EW

/-! Embedding of `contracts/Escrow.sol` (the variant without expiry).
Only the entry points the verified claims touch are modelled:
`createOffer`, `acceptOffer`, `cancelOffer`, `getOffer`. -/

namespace Esc

/-- Revert reasons of `Escrow`. -/
inductive Err where
  | enforcedPause
  | invalidToken
  | amountZero
  | priceZero
  | invalidBuyer
  | buyerIsSeller
  | cooldown
  | dailyLimit
  | insufficientBalance
  | notActive
  | notBuyer
  | invalidBusd
  | notSeller
deriving DecidableEq, Repr

/-- The `Offer` struct of `Escrow.sol` (no `expiresAt`). -/
structure Offer where
  id : Nat
  seller : Nat
  buyer : Nat
  tokenAddress : Nat
  amount : Nat
  priceInBUSD : Nat
  active : Bool
  createdAt : Nat
deriving DecidableEq, Repr

/-- Default storage value of an `Escrow.Offer` slot. -/
def zeroOffer : Offer :=
  { id := 0, seller := 0, buyer := 0, tokenAddress := 0, amount := 0,
    priceInBUSD := 0, active := false, createdAt := 0 }

/-- Contract storage of `Escrow` plus the external ledger. -/
structure State where
  self : Nat
  owner : Nat
  offerIdCounter : Nat
  offers : Nat → Offer
  lastOfferTime : Nat → Nat
  dailyOfferCount : Nat → Nat
  paused : Bool
  bal : Balances

/-- `createOffer` of `Escrow.sol`: identical rate-limit and deposit logic
to `EscrowWithExpiry.createOffer`, storing an offer without expiry. -/
def createOffer (st : State) (caller tokenAddress amount priceInBUSD buyer now : Nat) :
    Except Err (Nat × State) :=
  if st.paused then .error .enforcedPause
  else if tokenAddress = 0 then .error .invalidToken
  else if amount = 0 then .error .amountZero
  else if priceInBUSD = 0 then .error .priceZero
  else if buyer = 0 then .error .invalidBuyer
  else if buyer = caller then .error .buyerIsSeller
  else if now < st.lastOfferTime caller + 10 then .error .cooldown
  else if 50 ≤
      (if st.lastOfferTime caller + 86400 ≤ now then 0 else st.dailyOfferCount caller) then
    .error .dailyLimit
  else
    match Ledger.transfer st.bal tokenAddress caller st.self amount with
    | none => .error .insufficientBalance
    | some b2 =>
      .ok (st.offerIdCounter,
        { st with
          offerIdCounter := st.offerIdCounter + 1
          offers := fun j =>
            if j = st.offerIdCounter then
              { id := st.offerIdCounter, seller := caller, buyer := buyer,
                tokenAddress := tokenAddress, amount := amount,
                priceInBUSD := priceInBUSD, active := true, createdAt := now }
            else st.offers j
          lastOfferTime := fun a => if a = caller then now else st.lastOfferTime a
          dailyOfferCount := fun a =>
            if a = caller then
              (if st.lastOfferTime caller + 86400 ≤ now then 0
               else st.dailyOfferCount caller) + 1
            else st.dailyOfferCount a
          bal := b2 })

/-- The `offer.active = false` storage write of `Escrow`. -/
def flipInactive (st : State) (offerId : Nat) : State :=
  { st with offers := fun j =>
      if j = offerId then { st.offers offerId with active := false }
      else st.offers j }

/-- The two settlement transfers of `Escrow.acceptOffer`, in source order,
run on the already-flipped state. -/
def settleTransfers (st : State) (caller busdAddress : Nat) (offer : Offer) :
    Except Err State :=
  match Ledger.transfer st.bal busdAddress caller offer.seller offer.priceInBUSD with
  | none => .error .insufficientBalance
  | some b2 =>
    match Ledger.transfer b2 offer.tokenAddress st.self caller offer.amount with
    | none => .error .insufficientBalance
    | some b3 => .ok { st with bal := b3 }

/-- `Escrow.acceptOffer(offerId, busdAddress)`: no expiry check; flips the
status before either transfer (checks-effects-interactions). -/
def acceptOffer (st : State) (caller offerId busdAddress : Nat) : Except Err State :=
  if st.paused then .error .enforcedPause
  else if (st.offers offerId).active = false then .error .notActive
  else if caller ≠ (st.offers offerId).buyer then .error .notBuyer
  else if busdAddress = 0 then .error .invalidBusd
  else settleTransfers (flipInactive st offerId) caller busdAddress (st.offers offerId)

/-- `Escrow.cancelOffer(offerId)`. -/
def cancelOffer (st : State) (caller offerId : Nat) : Except Err State :=
  if st.paused then .error .enforcedPause
  else if (st.offers offerId).active = false then .error .notActive
  else if caller ≠ (st.offers offerId).seller then .error .notSeller
  else
    match Ledger.transfer (flipInactive st offerId).bal
        (st.offers offerId).tokenAddress st.self caller (st.offers offerId).amount with
    | none => .error .insufficientBalance
    | some b2 => .ok { flipInactive st offerId with bal := b2 }

/-- `Escrow.getOffer(offerId)`. -/
def getOffer (st : State) (offerId : Nat) : Offer := st.offers offerId

/-- Transaction semantics for `Escrow` calls: revert keeps the pre-state. -/
def runTx (st : State) (f : State → Except Err State) : State :=
  match f st with
  | .ok st2 => st2
  | .error _ => st

end Esc

/-! Embedding of the mock AMM (`MockPair`, `MockRouter`, `MockFactory`). -/

namespace MockPair

/-- `MINIMUM_LIQUIDITY = 10**3`. -/
def MINIMUM_LIQUIDITY : Nat := 1000

/-- Largest value of a `uint112` (the reserve width). -/
def UINT112_MAX : Nat := 2 ^ 112 - 1

/-- The `while (x < z) { z = x; x = (y / x + x) / 2; }` loop of
`MockPair.sqrt`, as a function of the loop variables. -/
def sqrtGo (y x z : Nat) : Nat :=
  if h : x < z then sqrtGo y ((y / x + x) / 2) x else z
termination_by z

/-- `MockPair.sqrt`: Babylonian integer square root as written in the
source (`y > 3` general case, `1` for `1..3`, `0` for `0`). -/
def sqrt (y : Nat) : Nat :=
  if 3 < y then sqrtGo y (y / 2 + 1) y
  else if y ≠ 0 then 1 else 0

/-- LP share state of a `MockPair` (the ERC20 LP token plus reserves). -/
structure PairState where
  totalSupply : Nat
  shares : Nat → Nat
  reserve0 : Nat
  reserve1 : Nat

/-- ERC20 `_mint`: credit `amt` LP shares to `acct`. -/
def mintShares (ps : PairState) (acct amt : Nat) : PairState :=
  { ps with totalSupply := ps.totalSupply + amt,
            shares := fun a => if a = acct then ps.shares a + amt else ps.shares a }

/-- `MockPair.mint(to)` (recipient modelled as `dst`) where `balance0`/`balance1` are the pair's current
token holdings (`IERC20.balanceOf(address(this))`).  First deposit mints
`sqrt(amount0*amount1) - MINIMUM_LIQUIDITY` to `to` and locks
`MINIMUM_LIQUIDITY` at address 1; later deposits mint proportionally.
`none` models the reverts: checked-subtraction underflow on
`sqrt(..) - MINIMUM_LIQUIDITY`, `INSUFFICIENT_LIQUIDITY_MINTED`, and the
`uint112` overflow guard in `_update`. -/
def mint (ps : PairState) (dst balance0 balance1 : Nat) : Option (Nat × PairState) :=
  if balance0 < ps.reserve0 then none
  else if balance1 < ps.reserve1 then none
  else
    if ps.totalSupply = 0 then
      if sqrt ((balance0 - ps.reserve0) * (balance1 - ps.reserve1)) < MINIMUM_LIQUIDITY then
        none
      else if sqrt ((balance0 - ps.reserve0) * (balance1 - ps.reserve1)) - MINIMUM_LIQUIDITY
          = 0 then none
      else if UINT112_MAX < balance0 then none
      else if UINT112_MAX < balance1 then none
      else
        some (sqrt ((balance0 - ps.reserve0) * (balance1 - ps.reserve1)) - MINIMUM_LIQUIDITY,
          { mintShares (mintShares ps 1 MINIMUM_LIQUIDITY) dst
              (sqrt ((balance0 - ps.reserve0) * (balance1 - ps.reserve1)) - MINIMUM_LIQUIDITY)
            with reserve0 := balance0, reserve1 := balance1 })
    else
      if min ((balance0 - ps.reserve0) * ps.totalSupply / ps.reserve0)
          ((balance1 - ps.reserve1) * ps.totalSupply / ps.reserve1) = 0 then none
      else if UINT112_MAX < balance0 then none
      else if UINT112_MAX < balance1 then none
      else
        some (min ((balance0 - ps.reserve0) * ps.totalSupply / ps.reserve0)
            ((balance1 - ps.reserve1) * ps.totalSupply / ps.reserve1),
          { mintShares ps dst
              (min ((balance0 - ps.reserve0) * ps.totalSupply / ps.reserve0)
                ((balance1 - ps.reserve1) * ps.totalSupply / ps.reserve1))
            with reserve0 := balance0, reserve1 := balance1 })

end MockPair

namespace MockRouter

/-- `MockRouter.getAmountOut(amountIn, reserveIn, reserveOut)`:
fee-adjusted constant-product quote with truncating division; `none`
models the two `require` reverts. -/
def getAmountOut (amountIn reserveIn reserveOut : Nat) : Option Nat :=
  if amountIn = 0 then none
  else if reserveIn = 0 ∨ reserveOut = 0 then none
  else some (amountIn * 997 * reserveOut / (reserveIn * 1000 + amountIn * 997))

end MockRouter

namespace MockFactory

/-- Revert reasons of `MockFactory.createPair`. -/
inductive FErr where
  | identicalAddresses
  | zeroAddress
  | pairExists
deriving DecidableEq, Repr

/-- Factory storage: the symmetric `getPair` mapping (0 = no pair) and the
list of deployed pair addresses. -/
structure FactoryState where
  pairOf : Nat → Nat → Nat
  allPairs : List Nat

/-- `MockFactory.createPair(tokenA, tokenB)`: rejects identical tokens,
sorts the pair, rejects a zero `token0`, rejects an existing pair, then
deploys a fresh pair contract (modelled as the nonzero address
`allPairs.length + 1`) and records it under both orders. -/
def createPair (fs : FactoryState) (tokenA tokenB : Nat) :
    Except FErr (Nat × FactoryState) :=
  if tokenA = tokenB then .error .identicalAddresses
  else if (if tokenA < tokenB then tokenA else tokenB) = 0 then .error .zeroAddress
  else if fs.pairOf (if tokenA < tokenB then tokenA else tokenB)
      (if tokenA < tokenB then tokenB else tokenA) ≠ 0 then .error .pairExists
  else
    .ok (fs.allPairs.length + 1,
      { pairOf := fun a b =>
          if (a = (if tokenA < tokenB then tokenA else tokenB) ∧
              b = (if tokenA < tokenB then tokenB else tokenA)) ∨
             (a = (if tokenA < tokenB then tokenB else tokenA) ∧
              b = (if tokenA < tokenB then tokenA else tokenB)) then
            fs.allPairs.length + 1
          else fs.pairOf a b
        allPairs := fs.allPairs ++ [fs.allPairs.length + 1] })

/-- The get-or-create path of `MockRouter.addLiquidity`: read
`factory.getPair(tokenA, tokenB)` and call `createPair` only when no pair
exists yet. -/
def getOrCreatePair (fs : FactoryState) (tokenA tokenB : Nat) :
    Except FErr (Nat × FactoryState) :=
  if fs.pairOf tokenA tokenB ≠ 0 then .ok (fs.pairOf tokenA tokenB, fs)
  else createPair fs tokenA tokenB

end MockFactory

/-! Concrete states used to instantiate the claims, and the
spec-modelled rate-limit window of claim C6. -/

/-- Modelled from the spec: the spec's `RateLimitState` carries a
`windowStart` timestamp besides `lastOfferAt` and `windowCount`, and the
claim says the counter "is reset exactly when now ≥ windowStart + 1 day
(one day after the current window began)". -/
structure SpecWindow where
  lastOfferAt : Nat
  windowCount : Nat
  windowStart : Nat
deriving DecidableEq, Repr

/-- Modelled from the spec: one `createOffer` rate-limit step under the
claim's semantics — cooldown of 10 s, reset (and re-anchoring of the
window) exactly when `now ≥ windowStart + 1 day`, cap of 50 per window. -/
def specWindowStep (w : SpecWindow) (now : Nat) : Option SpecWindow :=
  if now < w.lastOfferAt + 10 then none
  else
    if 50 ≤ (if w.windowStart + 86400 ≤ now then 0 else w.windowCount) then none
    else
      some { lastOfferAt := now,
             windowCount :=
               (if w.windowStart + 86400 ≤ now then 0 else w.windowCount) + 1,
             windowStart :=
               if w.windowStart + 86400 ≤ now then now else w.windowStart }

/-- Ledger for the claim C6 trace: ample balances everywhere. -/
def c6bal : Balances := fun _ _ => 1000000

/-- Fresh escrow for the claim C6 trace. -/
def c6st0 : EW.State := EW.initState 2 1 c6bal

/-- Three offers by seller 10 at times 100, 50000 and 86500 — the third
call comes exactly one day after the first offer of the window. -/
def c6run : Except EW.Err EW.State := do
  let r1 ← EW.createOffer c6st0 10 5 7 9 11 100
  let r2 ← EW.createOffer r1.2 10 5 7 9 11 50000
  let r3 ← EW.createOffer r2.2 10 5 7 9 11 86500
  pure r3.2

/-- The seller's daily counter after the C6 trace, as the code computes it. -/
def c6codeCount : Except EW.Err Nat := c6run.map fun s => s.dailyOfferCount 10

/-- The same trace under the claim's window semantics. -/
def c6specRun : Option SpecWindow := do
  let w1 ← specWindowStep { lastOfferAt := 0, windowCount := 0, windowStart := 0 } 100
  let w2 ← specWindowStep w1 50000
  specWindowStep w2 86500

/-- Empty pool used to instantiate claim C7. -/
def c7ps0 : MockPair.PairState :=
  { totalSupply := 0, shares := fun _ => 0, reserve0 := 0, reserve1 := 0 }

/-- Empty factory used to instantiate claim C8. -/
def c8fs0 : MockFactory.FactoryState :=
  { pairOf := fun _ _ => 0, allPairs := [] }

/-- Ledger used to instantiate claim C3: every account holds 100 of every
token. -/
def c3bal : Balances := fun _ _ => 100

/-- Escrow state used to instantiate claim C1: one active offer (id 0,
seller 10, buyer 11, 7 tokens at a price of 50 BUSD), the engine holding
the 7 escrowed tokens, and the buyer holding no BUSD at all. -/
def c1st : EW.State :=
  { self := 2, owner := 1, offerIdCounter := 1,
    offers := fun j =>
      if j = 0 then
        { id := 0, seller := 10, buyer := 11, tokenAddress := 5, amount := 7,
          priceInBUSD := 50, active := true, createdAt := 100, expiresAt := 1000 }
      else EW.zeroOffer,
    offerExpiryTime := 900, lastOfferTime := fun _ => 0,
    dailyOfferCount := fun _ => 0, paused := false,
    bal := fun tok a => if tok = 5 ∧ a = 2 then 7 else 0 }

/-- The same scenario for the `Escrow` contract without expiry. -/
def c1stE : Esc.State :=
  { self := 2, owner := 1, offerIdCounter := 1,
    offers := fun j =>
      if j = 0 then
        { id := 0, seller := 10, buyer := 11, tokenAddress := 5, amount := 7,
          priceInBUSD := 50, active := true, createdAt := 100 }
      else Esc.zeroOffer,
    lastOfferTime := fun _ => 0, dailyOfferCount := fun _ => 0, paused := false,
    bal := fun tok a => if tok = 5 ∧ a = 2 then 7 else 0 }


/-! Basic lemmas about the ledger. -/

namespace Ledger

theorem transfer_none_iff (b : Balances) (tok src dst amt : Nat) :
    transfer b tok src dst amt = none ↔ b tok src < amt := by
  unfold transfer
  split <;> simp_all

theorem transfer_some_of_le (b : Balances) (tok src dst amt : Nat)
    (h : amt ≤ b tok src) :
    transfer b tok src dst amt =
      some (setBal (setBal b tok src (b tok src - amt)) tok dst
        ((setBal b tok src (b tok src - amt)) tok dst + amt)) := by
  unfold transfer
  rw [if_neg (by omega)]

theorem transfer_le {b b2 : Balances} {tok src dst amt : Nat}
    (h : transfer b tok src dst amt = some b2) : amt ≤ b tok src := by
  unfold transfer at h
  split at h
  · exact absurd h (by simp)
  · omega

theorem transfer_src_bal {b b2 : Balances} {tok src dst amt : Nat}
    (h : transfer b tok src dst amt = some b2) (hne : dst ≠ src) :
    b2 tok src = b tok src - amt := by
  unfold transfer at h
  split at h
  · exact absurd h (by simp)
  · injection h with h2
    subst h2
    simp [setBal, hne, Ne.symm hne]

theorem transfer_dst_bal {b b2 : Balances} {tok src dst amt : Nat}
    (h : transfer b tok src dst amt = some b2) (hne : dst ≠ src) :
    b2 tok dst = b tok dst + amt := by
  unfold transfer at h
  split at h
  · exact absurd h (by simp)
  · injection h with h2
    subst h2
    simp [setBal, hne, Ne.symm hne]

theorem transfer_frame {b b2 : Balances} {tok src dst amt : Nat}
    (h : transfer b tok src dst amt = some b2) (t a : Nat)
    (hother : t ≠ tok ∨ (a ≠ src ∧ a ≠ dst)) :
    b2 t a = b t a := by
  unfold transfer at h
  split at h
  · exact absurd h (by simp)
  · injection h with h2
    subst h2
    rcases hother with ht | hab
    · simp [setBal, ht]
    · simp [setBal, hab.1, hab.2]

end Ledger

/-! Correctness of the Babylonian square root in `MockPair.sqrt`:
it computes exactly `Nat.sqrt`, the floor integer square root. -/

namespace MockPair

theorem newton_ge_sqrt (y x : Nat) (hx : 0 < x) :
    Nat.sqrt y ≤ (y / x + x) / 2 := by
  have hs : Nat.sqrt y * Nat.sqrt y ≤ y := Nat.sqrt_le y
  have h1 : Nat.sqrt y * Nat.sqrt y / x ≤ y / x := Nat.div_le_div_right hs
  rcases le_or_lt (2 * Nat.sqrt y) x with h | h
  · generalize y / x = q at h1 ⊢
    omega
  · have hxle : x ≤ 2 * Nat.sqrt y := le_of_lt h
    have hkey : (2 * Nat.sqrt y - x) * x ≤ Nat.sqrt y * Nat.sqrt y := by
      zify [hxle]
      nlinarith [sq_nonneg ((Nat.sqrt y : ℤ) - x)]
    have hdiv := (Nat.le_div_iff_mul_le hx).mpr hkey
    generalize Nat.sqrt y * Nat.sqrt y / x = p at h1 hdiv
    generalize y / x = q at h1 ⊢
    omega

theorem natSqrt_le_half_succ (y : Nat) : Nat.sqrt y ≤ y / 2 + 1 := by
  by_contra hcon
  push_neg at hcon
  have hs : Nat.sqrt y * Nat.sqrt y ≤ y := Nat.sqrt_le y
  have h2 : (y / 2 + 2) * (y / 2 + 2) ≤ Nat.sqrt y * Nat.sqrt y :=
    Nat.mul_le_mul (by omega) (by omega)
  have h4 : (y / 2 + 2) * (y / 2 + 2) ≤ y := le_trans h2 hs
  have h3 : y ≤ 2 * (y / 2) + 1 := by omega
  nlinarith [h4, h3]

theorem two_le_natSqrt {y : Nat} (hy : 4 ≤ y) : 2 ≤ Nat.sqrt y :=
  Nat.le_sqrt.mpr (by omega)

theorem sqrtGo_spec (y : Nat) (hy : 4 ≤ y) :
    ∀ z x : Nat, Nat.sqrt y ≤ x → Nat.sqrt y ≤ z →
      ((y / z + z) / 2 = x ∨ (z = y ∧ x = y / 2 + 1)) →
      sqrtGo y x z = Nat.sqrt y := by
  intro z
  induction z using Nat.strong_induction_on with
  | _ z ih =>
    intro x hx hz hlink
    rw [sqrtGo]
    split
    · next hxz =>
      exact ih x hxz ((y / x + x) / 2)
        (newton_ge_sqrt y x (lt_of_lt_of_le (by omega) (le_trans (two_le_natSqrt hy) hx)))
        hx (Or.inl rfl)
    · next hxz =>
      rcases hlink with hl | ⟨hzy, hxv⟩
      · have hzx : z ≤ x := by omega
        have h2z : 2 * z ≤ y / z + z := by
          have : z ≤ (y / z + z) / 2 := by omega
          generalize y / z = q at this ⊢
          omega
        have hzz : z * z ≤ y := by
          have hzpos : 0 < z := lt_of_lt_of_le (by omega) (le_trans (two_le_natSqrt hy) hz)
          have : z ≤ y / z := by omega
          exact (Nat.le_div_iff_mul_le hzpos).mp this
        have : z ≤ Nat.sqrt y := Nat.le_sqrt.mpr hzz
        omega
      · subst hzy
        subst hxv
        omega

theorem sqrt_eq_natSqrt (y : Nat) : sqrt y = Nat.sqrt y := by
  unfold sqrt
  split
  · next h3 =>
    exact sqrtGo_spec y (by omega) y (y / 2 + 1) (natSqrt_le_half_succ y)
      (Nat.sqrt_le_self y) (Or.inr ⟨rfl, rfl⟩)
  · next h3 =>
    split
    · next hne =>
      have hy3 : y ≤ 3 := by omega
      interval_cases y
      · exact absurd rfl hne
      · exact Nat.eq_sqrt.mpr (by norm_num)
      · exact Nat.eq_sqrt.mpr (by norm_num)
      · exact Nat.eq_sqrt.mpr (by norm_num)
    · next hne =>
      have : y = 0 := by omega
      subst this
      rfl

end MockPair

/-! Claims C4 and C5: the swap quote formula and the constant-product
invariant of `MockRouter.getAmountOut`. -/

theorem amountOut_mul_le {a r s out : Nat} (hr : 0 < r)
    (hout : out = a * 997 * s / (r * 1000 + a * 997)) :
    out * (r + a) ≤ a * s := by
  have hD : 0 < r * 1000 + a * 997 := by positivity
  have h1 : out * (r * 1000 + a * 997) ≤ a * 997 * s := by
    rw [hout]
    exact Nat.div_mul_le_self _ _
  have h2 : out * (r + a) * (r * 1000 + a * 997) ≤ a * s * (r * 1000 + a * 997) := by
    calc out * (r + a) * (r * 1000 + a * 997)
        = out * (r * 1000 + a * 997) * (r + a) := by ring
      _ ≤ a * 997 * s * (r + a) := Nat.mul_le_mul_right _ h1
      _ ≤ a * s * (r * 1000 + a * 997) := by nlinarith [Nat.zero_le (a * s * r)]
  exact Nat.le_of_mul_le_mul_right h2 hD

/-- Claim C4: for positive `amountIn` and positive reserves the swap quote
is exactly `floor(amountIn * 997 * reserveOut / (reserveIn * 1000 +
amountIn * 997))` (truncating division); the call reverts when `amountIn`
is zero or either reserve is zero; and with reserves `(140, 140)` and
`amountIn = 10` the output is exactly `9`. -/
theorem C4_getAmountOut_formula (amountIn reserveIn reserveOut : Nat) :
    (0 < amountIn → 0 < reserveIn → 0 < reserveOut →
      MockRouter.getAmountOut amountIn reserveIn reserveOut =
        some (amountIn * 997 * reserveOut / (reserveIn * 1000 + amountIn * 997))) ∧
    (amountIn = 0 ∨ reserveIn = 0 ∨ reserveOut = 0 →
      MockRouter.getAmountOut amountIn reserveIn reserveOut = none) ∧
    MockRouter.getAmountOut 10 140 140 = some 9 := by
  refine ⟨?_, ?_, by decide⟩
  · intro h1 h2 h3
    unfold MockRouter.getAmountOut
    rw [if_neg (by omega), if_neg (by omega)]
  · intro h
    unfold MockRouter.getAmountOut
    rcases h with h | h | h
    · rw [if_pos h]
    · by_cases hin : amountIn = 0
      · rw [if_pos hin]
      · rw [if_neg hin, if_pos (Or.inl h)]
    · by_cases hin : amountIn = 0
      · rw [if_pos hin]
      · rw [if_neg hin, if_pos (Or.inr h)]

theorem C4_getAmountOut_formula_witness :
    MockRouter.getAmountOut 10 140 140 =
      some (10 * 997 * 140 / (140 * 1000 + 10 * 997)) ∧
    MockRouter.getAmountOut 0 140 140 = none :=
  ⟨(C4_getAmountOut_formula 10 140 140).1 (by norm_num) (by norm_num) (by norm_num),
   (C4_getAmountOut_formula 0 140 140).2.1 (Or.inl rfl)⟩

/-- Claim C5: applying a swap at the quoted output never decreases the
reserve product: if `getAmountOut` returns `amountOut` on positive input
and reserves, then `(reserveIn + amountIn) * (reserveOut - amountOut) ≥
reserveIn * reserveOut` (and `amountOut ≤ reserveOut`, so the subtraction
does not truncate). -/
theorem C5_swap_product_monotone (amountIn reserveIn reserveOut amountOut : Nat)
    (hin : 0 < amountIn) (hrin : 0 < reserveIn) (hrout : 0 < reserveOut)
    (hq : MockRouter.getAmountOut amountIn reserveIn reserveOut = some amountOut) :
    amountOut ≤ reserveOut ∧
    reserveIn * reserveOut ≤ (reserveIn + amountIn) * (reserveOut - amountOut) := by
  have hout : amountOut =
      amountIn * 997 * reserveOut / (reserveIn * 1000 + amountIn * 997) := by
    unfold MockRouter.getAmountOut at hq
    rw [if_neg (by omega), if_neg (by omega)] at hq
    exact (Option.some.injEq _ _ ▸ hq).symm
  have h1 : amountOut * (reserveIn + amountIn) ≤ amountIn * reserveOut :=
    amountOut_mul_le hrin hout
  have h2a : amountOut * (reserveIn + amountIn) ≤ reserveOut * (reserveIn + amountIn) :=
    le_trans h1 (by nlinarith [Nat.zero_le (reserveOut * reserveIn)])
  have h2 : amountOut ≤ reserveOut := Nat.le_of_mul_le_mul_right h2a (by omega)
  refine ⟨h2, ?_⟩
  zify [h2]
  zify at h1
  nlinarith [h1]

theorem C5_swap_product_monotone_witness :
    9 ≤ 140 ∧ 140 * 140 ≤ (140 + 10) * (140 - 9) :=
  C5_swap_product_monotone 10 140 140 9 (by norm_num) (by norm_num) (by norm_num)
    (by decide)

/-! Claim C7: first liquidity deposit into an empty pool. -/

/-- Claim C7: on the first deposit into an empty pool
(`totalSupply == 0`), the depositor is minted exactly
`floor(sqrt(amountA * amountB)) - MINIMUM_LIQUIDITY` LP shares while
`MINIMUM_LIQUIDITY = 1000` is minted to the locked burn sink (address 1),
and the deposit reverts whenever
`floor(sqrt(amountA * amountB)) ≤ MINIMUM_LIQUIDITY`, i.e. whenever the
computed share amount would be `≤ 0`. -/
theorem C7_first_mint (ps : MockPair.PairState) (dst amountA amountB : Nat)
    (hsupply : ps.totalSupply = 0) (hr0 : ps.reserve0 = 0) (hr1 : ps.reserve1 = 0)
    (hb0 : amountA ≤ MockPair.UINT112_MAX) (hb1 : amountB ≤ MockPair.UINT112_MAX)
    (hdst : dst ≠ 1) :
    (MockPair.MINIMUM_LIQUIDITY < Nat.sqrt (amountA * amountB) →
      ∃ ps2 : MockPair.PairState,
        MockPair.mint ps dst amountA amountB =
          some (Nat.sqrt (amountA * amountB) - MockPair.MINIMUM_LIQUIDITY, ps2) ∧
        ps2.shares dst =
          ps.shares dst + (Nat.sqrt (amountA * amountB) - MockPair.MINIMUM_LIQUIDITY) ∧
        ps2.shares 1 = ps.shares 1 + MockPair.MINIMUM_LIQUIDITY ∧
        ps2.totalSupply = Nat.sqrt (amountA * amountB)) ∧
    (Nat.sqrt (amountA * amountB) ≤ MockPair.MINIMUM_LIQUIDITY →
      MockPair.mint ps dst amountA amountB = none) := by
  have hsq := MockPair.sqrt_eq_natSqrt (amountA * amountB)
  constructor
  · intro hgt
    refine ⟨{ MockPair.mintShares
        (MockPair.mintShares ps 1 MockPair.MINIMUM_LIQUIDITY) dst
        (Nat.sqrt (amountA * amountB) - MockPair.MINIMUM_LIQUIDITY) with
        reserve0 := amountA, reserve1 := amountB }, ?_, ?_, ?_, ?_⟩
    · unfold MockPair.mint
      rw [hr0, hr1, if_neg (by omega), if_neg (by omega), if_pos hsupply]
      simp only [Nat.sub_zero]
      rw [hsq, if_neg (not_lt.mpr hgt.le), if_neg (Nat.sub_ne_zero_of_lt hgt),
        if_neg (not_lt.mpr hb0), if_neg (not_lt.mpr hb1)]
    · simp [MockPair.mintShares, hdst]
    · simp [MockPair.mintShares, Ne.symm hdst]
    · have hgt2 : 1000 < Nat.sqrt (amountA * amountB) := hgt
      simp only [MockPair.mintShares, MockPair.MINIMUM_LIQUIDITY, hsupply]
      omega
  · intro hle
    unfold MockPair.mint
    rw [hr0, hr1, if_neg (by omega), if_neg (by omega), if_pos hsupply]
    simp only [Nat.sub_zero]
    rw [hsq]
    rcases lt_or_eq_of_le hle with hlt | heq
    · rw [if_pos hlt]
    · rw [if_neg (by rw [heq]; exact lt_irrefl _), if_pos (by rw [heq]; exact Nat.sub_self _)]

theorem C7_first_mint_witness :
    (MockPair.mint c7ps0 2 2000 2000).isSome = true := by
  obtain ⟨ps2, hmint, -, -, -⟩ :=
    (C7_first_mint c7ps0 2 2000 2000 rfl rfl rfl
      (by norm_num [MockPair.UINT112_MAX]) (by norm_num [MockPair.UINT112_MAX])
      (by norm_num)).1
      (by rw [Nat.sqrt_eq]; norm_num [MockPair.MINIMUM_LIQUIDITY])
  rw [hmint]
  rfl

/-! Claim C8: pair canonicalization and registry uniqueness. -/

/-- Claim C8: `createPair` rejects identical assets with
`IdenticalAddresses` (checked first, so it also covers the all-zero pair),
rejects a zero asset with `ZeroAddress`, and a successful creation
registers the same nonzero pool under both argument orders, after which
the direct `createPair` entry point fails with `PairExists` in either
order while the router's get-or-create path idempotently returns the same
pool with the state unchanged; on a fresh pair the get-or-create path is
exactly `createPair`. -/
theorem C8_pair_registry (fs : MockFactory.FactoryState) (tokenA tokenB : Nat) :
    (tokenA = tokenB →
      MockFactory.createPair fs tokenA tokenB = .error .identicalAddresses) ∧
    (tokenA ≠ tokenB → (tokenA = 0 ∨ tokenB = 0) →
      MockFactory.createPair fs tokenA tokenB = .error .zeroAddress) ∧
    (fs.pairOf tokenA tokenB = 0 →
      MockFactory.getOrCreatePair fs tokenA tokenB =
        MockFactory.createPair fs tokenA tokenB) ∧
    (∀ pair fs2, MockFactory.createPair fs tokenA tokenB = .ok (pair, fs2) →
      pair ≠ 0 ∧
      fs2.pairOf tokenA tokenB = pair ∧
      fs2.pairOf tokenB tokenA = pair ∧
      MockFactory.createPair fs2 tokenA tokenB = .error .pairExists ∧
      MockFactory.createPair fs2 tokenB tokenA = .error .pairExists ∧
      MockFactory.getOrCreatePair fs2 tokenA tokenB = .ok (pair, fs2) ∧
      MockFactory.getOrCreatePair fs2 tokenB tokenA = .ok (pair, fs2)) := by
  refine ⟨?_, ?_, ?_, ?_⟩
  · intro h
    unfold MockFactory.createPair
    rw [if_pos h]
  · intro hne h0
    unfold MockFactory.createPair
    rw [if_neg hne]
    rcases Nat.lt_or_ge tokenA tokenB with hab | hge
    · have h0a : tokenA = 0 := by omega
      simp only [if_pos hab]
      rw [if_pos h0a]
    · have hba : tokenB < tokenA := by omega
      have hab : ¬ tokenA < tokenB := by omega
      have h0b : tokenB = 0 := by omega
      simp only [if_neg hab]
      rw [if_pos h0b]
  · intro h0
    unfold MockFactory.getOrCreatePair
    simp [h0]
  · intro pair fs2 h
    have hne : tokenA ≠ tokenB := by
      intro he
      unfold MockFactory.createPair at h
      rw [if_pos he] at h
      exact absurd h (by simp)
    unfold MockFactory.createPair at h
    rw [if_neg hne] at h
    rcases Nat.lt_or_ge tokenA tokenB with hab | hge
    · simp only [if_pos hab] at h
      by_cases h0 : tokenA = 0
      · rw [if_pos h0] at h
        exact absurd h (by simp)
      · rw [if_neg h0] at h
        by_cases hex : fs.pairOf tokenA tokenB ≠ 0
        · rw [if_pos hex] at h
          exact absurd h (by simp)
        · rw [if_neg hex] at h
          simp only [Except.ok.injEq, Prod.mk.injEq] at h
          obtain ⟨hp, hf⟩ := h
          subst hp
          subst hf
          refine ⟨by omega, by simp, by simp, ?_, ?_, ?_, ?_⟩
          · unfold MockFactory.createPair
            rw [if_neg hne]
            simp only [if_pos hab]
            rw [if_neg h0, if_pos (by simp)]
          · unfold MockFactory.createPair
            rw [if_neg (Ne.symm hne)]
            have hba : ¬ tokenB < tokenA := by omega
            simp only [if_neg hba]
            rw [if_neg h0, if_pos (by simp)]
          · unfold MockFactory.getOrCreatePair
            rw [if_pos (by simp)]
            simp
          · unfold MockFactory.getOrCreatePair
            rw [if_pos (by simp)]
            simp
    · have hba : tokenB < tokenA := by omega
      have habn : ¬ tokenA < tokenB := by omega
      simp only [if_neg habn] at h
      by_cases h0 : tokenB = 0
      · rw [if_pos h0] at h
        exact absurd h (by simp)
      · rw [if_neg h0] at h
        by_cases hex : fs.pairOf tokenB tokenA ≠ 0
        · rw [if_pos hex] at h
          exact absurd h (by simp)
        · rw [if_neg hex] at h
          simp only [Except.ok.injEq, Prod.mk.injEq] at h
          obtain ⟨hp, hf⟩ := h
          subst hp
          subst hf
          refine ⟨by omega, by simp, by simp, ?_, ?_, ?_, ?_⟩
          · unfold MockFactory.createPair
            rw [if_neg hne]
            simp only [if_neg habn]
            rw [if_neg h0, if_pos (by simp)]
          · unfold MockFactory.createPair
            rw [if_neg (Ne.symm hne)]
            simp only [if_pos hba]
            rw [if_neg h0, if_pos (by simp)]
          · unfold MockFactory.getOrCreatePair
            rw [if_pos (by simp)]
            simp
          · unfold MockFactory.getOrCreatePair
            rw [if_pos (by simp)]
            simp

theorem C8_pair_registry_witness :
    MockFactory.createPair c8fs0 3 3 = .error .identicalAddresses ∧
    MockFactory.createPair c8fs0 0 5 = .error .zeroAddress ∧
    ∃ pair fs2, MockFactory.createPair c8fs0 3 5 = .ok (pair, fs2) ∧
      MockFactory.getOrCreatePair fs2 5 3 = .ok (pair, fs2) := by
  refine ⟨(C8_pair_registry c8fs0 3 3).1 rfl,
    (C8_pair_registry c8fs0 0 5).2.1 (by norm_num) (Or.inl rfl), ?_⟩
  refine ⟨_, _, rfl, ?_⟩
  exact ((C8_pair_registry c8fs0 3 5).2.2.2 _ _ rfl).2.2.2.2.2.2

/-! Characterization lemmas for the `EscrowWithExpiry` operations. -/

namespace EW

theorem flipInactive_bal (st : State) (i : Nat) : (flipInactive st i).bal = st.bal := rfl

theorem flipInactive_self (st : State) (i : Nat) : (flipInactive st i).self = st.self := rfl

theorem flipInactive_offer_at (st : State) (i : Nat) :
    (flipInactive st i).offers i = { st.offers i with active := false } := by
  simp [flipInactive]

theorem flipInactive_offer_ne (st : State) (i j : Nat) (h : j ≠ i) :
    (flipInactive st i).offers j = st.offers j := by
  simp [flipInactive, h]

theorem settleTransfers_ok {st : State} {caller busdAddress : Nat} {offer : Offer}
    {st2 : State} (h : settleTransfers st caller busdAddress offer = .ok st2) :
    ∃ b2 b3,
      Ledger.transfer st.bal busdAddress caller offer.seller offer.priceInBUSD = some b2 ∧
      Ledger.transfer b2 offer.tokenAddress st.self caller offer.amount = some b3 ∧
      st2 = { st with bal := b3 } := by
  revert h
  unfold settleTransfers
  cases htr1 : Ledger.transfer st.bal busdAddress caller offer.seller offer.priceInBUSD with
  | none =>
    intro h
    exact absurd h (by simp)
  | some b2 =>
    dsimp only
    cases htr2 : Ledger.transfer b2 offer.tokenAddress st.self caller offer.amount with
    | none =>
      intro h
      exact absurd h (by simp)
    | some b3 =>
      intro h
      simp only [Except.ok.injEq] at h
      exact ⟨b2, b3, rfl, htr2, h.symm⟩

theorem createOffer_ok {st : State}
    {caller tokenAddress amount priceInBUSD buyer now offerId : Nat} {st2 : State}
    (h : createOffer st caller tokenAddress amount priceInBUSD buyer now =
      .ok (offerId, st2)) :
    st.paused = false ∧ tokenAddress ≠ 0 ∧ amount ≠ 0 ∧ priceInBUSD ≠ 0 ∧ buyer ≠ 0 ∧
    buyer ≠ caller ∧ st.lastOfferTime caller + OFFER_COOLDOWN ≤ now ∧
    (if st.lastOfferTime caller + 86400 ≤ now then 0 else st.dailyOfferCount caller) <
      MAX_OFFERS_PER_DAY ∧
    offerId = st.offerIdCounter ∧
    ∃ b2, Ledger.transfer st.bal tokenAddress caller st.self amount = some b2 ∧
      st2 = { st with
        offerIdCounter := st.offerIdCounter + 1
        offers := fun j =>
          if j = st.offerIdCounter then
            { id := st.offerIdCounter, seller := caller, buyer := buyer,
              tokenAddress := tokenAddress, amount := amount,
              priceInBUSD := priceInBUSD, active := true, createdAt := now,
              expiresAt := now + st.offerExpiryTime }
          else st.offers j
        lastOfferTime := fun a => if a = caller then now else st.lastOfferTime a
        dailyOfferCount := fun a =>
          if a = caller then
            (if st.lastOfferTime caller + 86400 ≤ now then 0
             else st.dailyOfferCount caller) + 1
          else st.dailyOfferCount a
        bal := b2 } := by
  unfold createOffer at h
  by_cases h1 : st.paused = true
  · rw [if_pos h1] at h
    exact absurd h (by simp)
  · rw [if_neg h1] at h
    by_cases h2 : tokenAddress = 0
    · rw [if_pos h2] at h
      exact absurd h (by simp)
    · rw [if_neg h2] at h
      by_cases h3 : amount = 0
      · rw [if_pos h3] at h
        exact absurd h (by simp)
      · rw [if_neg h3] at h
        by_cases h4 : priceInBUSD = 0
        · rw [if_pos h4] at h
          exact absurd h (by simp)
        · rw [if_neg h4] at h
          by_cases h5 : buyer = 0
          · rw [if_pos h5] at h
            exact absurd h (by simp)
          · rw [if_neg h5] at h
            by_cases h6 : buyer = caller
            · rw [if_pos h6] at h
              exact absurd h (by simp)
            · rw [if_neg h6] at h
              by_cases h7 : now < st.lastOfferTime caller + OFFER_COOLDOWN
              · rw [if_pos h7] at h
                exact absurd h (by simp)
              · rw [if_neg h7] at h
                by_cases h8 : MAX_OFFERS_PER_DAY ≤
                    (if st.lastOfferTime caller + 86400 ≤ now then 0
                     else st.dailyOfferCount caller)
                · rw [if_pos h8] at h
                  exact absurd h (by simp)
                · rw [if_neg h8] at h
                  rcases htr : Ledger.transfer st.bal tokenAddress caller st.self amount
                    with _ | b2
                  · rw [htr] at h
                    exact absurd h (by simp)
                  · rw [htr] at h
                    simp only [Except.ok.injEq, Prod.mk.injEq] at h
                    exact ⟨by simpa using h1, h2, h3, h4, h5, h6, by omega, by omega,
                      h.1.symm, b2, rfl, h.2.symm⟩

theorem acceptOffer_ok {st : State} {caller offerId busdAddress now : Nat} {st2 : State}
    (h : acceptOffer st caller offerId busdAddress now = .ok st2) :
    st.paused = false ∧ (st.offers offerId).active = true ∧
    caller = (st.offers offerId).buyer ∧ busdAddress ≠ 0 ∧
    now ≤ (st.offers offerId).expiresAt ∧
    ∃ b2 b3,
      Ledger.transfer st.bal busdAddress caller (st.offers offerId).seller
        (st.offers offerId).priceInBUSD = some b2 ∧
      Ledger.transfer b2 (st.offers offerId).tokenAddress st.self caller
        (st.offers offerId).amount = some b3 ∧
      st2 = { flipInactive st offerId with bal := b3 } := by
  unfold acceptOffer at h
  by_cases h1 : st.paused = true
  · rw [if_pos h1] at h
    exact absurd h (by simp)
  · rw [if_neg h1] at h
    by_cases h2 : (st.offers offerId).active = false
    · rw [if_pos h2] at h
      exact absurd h (by simp)
    · rw [if_neg h2] at h
      by_cases h3 : caller ≠ (st.offers offerId).buyer
      · rw [if_pos h3] at h
        exact absurd h (by simp)
      · rw [if_neg h3] at h
        by_cases h4 : busdAddress = 0
        · rw [if_pos h4] at h
          exact absurd h (by simp)
        · rw [if_neg h4] at h
          by_cases h5 : (st.offers offerId).expiresAt < now
          · rw [if_pos h5] at h
            exact absurd h (by simp)
          · rw [if_neg h5] at h
            obtain ⟨b2, b3, ht1, ht2, hst⟩ := settleTransfers_ok h
            rw [flipInactive_bal] at ht1
            rw [flipInactive_self] at ht2
            exact ⟨by simpa using h1, by simpa using h2, by simpa using h3, h4,
              by omega, b2, b3, ht1, ht2, hst⟩

theorem cancelOffer_ok {st : State} {caller offerId : Nat} {st2 : State}
    (h : cancelOffer st caller offerId = .ok st2) :
    st.paused = false ∧ (st.offers offerId).active = true ∧
    caller = (st.offers offerId).seller ∧
    ∃ b2,
      Ledger.transfer st.bal (st.offers offerId).tokenAddress st.self caller
        (st.offers offerId).amount = some b2 ∧
      st2 = { flipInactive st offerId with bal := b2 } := by
  unfold cancelOffer at h
  by_cases h1 : st.paused = true
  · rw [if_pos h1] at h
    exact absurd h (by simp)
  · rw [if_neg h1] at h
    by_cases h2 : (st.offers offerId).active = false
    · rw [if_pos h2] at h
      exact absurd h (by simp)
    · rw [if_neg h2] at h
      by_cases h3 : caller ≠ (st.offers offerId).seller
      · rw [if_pos h3] at h
        exact absurd h (by simp)
      · rw [if_neg h3] at h
        rcases htr : Ledger.transfer (flipInactive st offerId).bal
            (st.offers offerId).tokenAddress st.self caller (st.offers offerId).amount
          with _ | b2
        · rw [htr] at h
          exact absurd h (by simp)
        · rw [htr] at h
          simp only [Except.ok.injEq] at h
          rw [flipInactive_bal] at htr
          exact ⟨by simpa using h1, by simpa using h2, by simpa using h3, b2, htr, h.symm⟩

theorem reclaimExpired_ok {st : State} {caller offerId now : Nat} {st2 : State}
    (h : reclaimExpired st caller offerId now = .ok st2) :
    (st.offers offerId).active = true ∧ (st.offers offerId).expiresAt < now ∧
    ∃ b2,
      Ledger.transfer st.bal (st.offers offerId).tokenAddress st.self
        (st.offers offerId).seller (st.offers offerId).amount = some b2 ∧
      st2 = { flipInactive st offerId with bal := b2 } := by
  unfold reclaimExpired at h
  by_cases h2 : (st.offers offerId).active = false
  · rw [if_pos h2] at h
    exact absurd h (by simp)
  · rw [if_neg h2] at h
    by_cases h3 : now ≤ (st.offers offerId).expiresAt
    · rw [if_pos h3] at h
      exact absurd h (by simp)
    · rw [if_neg h3] at h
      rcases htr : Ledger.transfer (flipInactive st offerId).bal
          (st.offers offerId).tokenAddress st.self (st.offers offerId).seller
          (st.offers offerId).amount with _ | b2
      · rw [htr] at h
        exact absurd h (by simp)
      · rw [htr] at h
        simp only [Except.ok.injEq] at h
        rw [flipInactive_bal] at htr
        exact ⟨by simpa using h2, by omega, b2, htr, h.symm⟩

theorem updateExpiryTime_ok {st : State} {caller newExpiryTime : Nat} {st2 : State}
    (h : updateExpiryTime st caller newExpiryTime = .ok st2) :
    caller = st.owner ∧ 60 ≤ newExpiryTime ∧ newExpiryTime ≤ 86400 ∧
    st2 = { st with offerExpiryTime := newExpiryTime } := by
  unfold updateExpiryTime at h
  by_cases h1 : caller ≠ st.owner
  · rw [if_pos h1] at h
    exact absurd h (by simp)
  · rw [if_neg h1] at h
    by_cases h2 : newExpiryTime < 60
    · rw [if_pos h2] at h
      exact absurd h (by simp)
    · rw [if_neg h2] at h
      by_cases h3 : 86400 < newExpiryTime
      · rw [if_pos h3] at h
        exact absurd h (by simp)
      · rw [if_neg h3] at h
        simp only [Except.ok.injEq] at h
        exact ⟨by simpa using h1, by omega, by omega, h.symm⟩

theorem pause_ok {st : State} {caller : Nat} {st2 : State}
    (h : pause st caller = .ok st2) : st2 = { st with paused := true } := by
  unfold pause at h
  by_cases h1 : caller ≠ st.owner
  · rw [if_pos h1] at h
    exact absurd h (by simp)
  · rw [if_neg h1] at h
    by_cases h2 : st.paused = true
    · rw [if_pos h2] at h
      exact absurd h (by simp)
    · rw [if_neg h2] at h
      simp only [Except.ok.injEq] at h
      exact h.symm

theorem unpause_ok {st : State} {caller : Nat} {st2 : State}
    (h : unpause st caller = .ok st2) : st2 = { st with paused := false } := by
  unfold unpause at h
  by_cases h1 : caller ≠ st.owner
  · rw [if_pos h1] at h
    exact absurd h (by simp)
  · rw [if_neg h1] at h
    by_cases h2 : st.paused = false
    · rw [if_pos h2] at h
      exact absurd h (by simp)
    · rw [if_neg h2] at h
      simp only [Except.ok.injEq] at h
      exact h.symm

theorem emergencyWithdraw_ok {st : State} {caller token amount dst : Nat} {st2 : State}
    (h : emergencyWithdraw st caller token amount dst = .ok st2) :
    ∃ b2, Ledger.transfer st.bal token st.self dst amount = some b2 ∧
      st2 = { st with bal := b2 } := by
  unfold emergencyWithdraw at h
  by_cases h1 : caller ≠ st.owner
  · rw [if_pos h1] at h
    exact absurd h (by simp)
  · rw [if_neg h1] at h
    by_cases h2 : dst = 0
    · rw [if_pos h2] at h
      exact absurd h (by simp)
    · rw [if_neg h2] at h
      by_cases h3 : st.paused = false
      · rw [if_pos h3] at h
        exact absurd h (by simp)
      · rw [if_neg h3] at h
        rcases htr : Ledger.transfer st.bal token st.self dst amount with _ | b2
        · rw [htr] at h
          exact absurd h (by simp)
        · rw [htr] at h
          simp only [Except.ok.injEq] at h
          exact ⟨b2, rfl, h.symm⟩

end EW

namespace EW

theorem step_preserves_inactive {st st2 : State} (h : Step st st2) :
    ∀ i, i < st.offerIdCounter → (st.offers i).active = false →
      (st2.offers i).active = false := by
  cases h with
  | create caller tok amt price buyer now offerId _ hc =>
    intro i hi hin
    obtain ⟨-, -, -, -, -, -, -, -, hid, b2, -, hst⟩ := createOffer_ok hc
    subst hst
    dsimp only
    rw [if_neg (by omega)]
    exact hin
  | accept caller offerId busd now _ hc =>
    intro i hi hin
    obtain ⟨-, -, -, -, -, b2, b3, -, -, hst⟩ := acceptOffer_ok hc
    subst hst
    dsimp only [flipInactive]
    by_cases hio : i = offerId
    · rw [if_pos hio]
    · rw [if_neg hio]
      exact hin
  | cancel caller offerId _ hc =>
    intro i hi hin
    obtain ⟨-, -, -, b2, -, hst⟩ := cancelOffer_ok hc
    subst hst
    dsimp only [flipInactive]
    by_cases hio : i = offerId
    · rw [if_pos hio]
    · rw [if_neg hio]
      exact hin
  | reclaim caller offerId now _ hc =>
    intro i hi hin
    obtain ⟨-, -, b2, -, hst⟩ := reclaimExpired_ok hc
    subst hst
    dsimp only [flipInactive]
    by_cases hio : i = offerId
    · rw [if_pos hio]
    · rw [if_neg hio]
      exact hin
  | updateExpiry caller newT _ hc =>
    intro i hi hin
    obtain ⟨-, -, -, hst⟩ := updateExpiryTime_ok hc
    subst hst
    exact hin
  | doPause caller _ hc =>
    intro i hi hin
    rw [pause_ok hc]
    exact hin
  | doUnpause caller _ hc =>
    intro i hi hin
    rw [unpause_ok hc]
    exact hin
  | withdraw caller token amount dst _ hc =>
    intro i hi hin
    obtain ⟨b2, -, hst⟩ := emergencyWithdraw_ok hc
    subst hst
    exact hin
  | externTransfer b =>
    intro i hi hin
    exact hin

theorem step_counter_mono {st st2 : State} (h : Step st st2) :
    st.offerIdCounter ≤ st2.offerIdCounter := by
  cases h with
  | create caller tok amt price buyer now offerId _ hc =>
    obtain ⟨-, -, -, -, -, -, -, -, -, b2, -, hst⟩ := createOffer_ok hc
    subst hst
    dsimp only
    omega
  | accept caller offerId busd now _ hc =>
    obtain ⟨-, -, -, -, -, b2, b3, -, -, hst⟩ := acceptOffer_ok hc
    subst hst
    exact le_refl _
  | cancel caller offerId _ hc =>
    obtain ⟨-, -, -, b2, -, hst⟩ := cancelOffer_ok hc
    subst hst
    exact le_refl _
  | reclaim caller offerId now _ hc =>
    obtain ⟨-, -, b2, -, hst⟩ := reclaimExpired_ok hc
    subst hst
    exact le_refl _
  | updateExpiry caller newT _ hc =>
    obtain ⟨-, -, -, hst⟩ := updateExpiryTime_ok hc
    subst hst
    exact le_refl _
  | doPause caller _ hc =>
    rw [pause_ok hc]
  | doUnpause caller _ hc =>
    rw [unpause_ok hc]
  | withdraw caller token amount dst _ hc =>
    obtain ⟨b2, -, hst⟩ := emergencyWithdraw_ok hc
    subst hst
    exact le_refl _
  | externTransfer b =>
    exact le_refl _

theorem reachable_inv {st : State} (h : Reachable st) :
    (60 ≤ st.offerExpiryTime ∧ st.offerExpiryTime ≤ 86400) ∧
    (∀ a, st.dailyOfferCount a ≤ MAX_OFFERS_PER_DAY) ∧
    (∀ i, st.offerIdCounter ≤ i → st.offers i = zeroOffer) ∧
    (∀ i, i < st.offerIdCounter →
      (st.offers i).createdAt + 60 ≤ (st.offers i).expiresAt ∧
      (st.offers i).expiresAt ≤ (st.offers i).createdAt + 86400) := by
  induction h with
  | init self owner bal =>
    refine ⟨⟨by norm_num [initState, DEFAULT_EXPIRY_TIME],
      by norm_num [initState, DEFAULT_EXPIRY_TIME]⟩, ?_, ?_, ?_⟩
    · intro a
      simp [initState, MAX_OFFERS_PER_DAY]
    · intro i hi
      rfl
    · intro i hi
      exact absurd hi (by simp [initState])
  | step hr hstep ih =>
    obtain ⟨⟨hel, heu⟩, hdc, hzero, hbounds⟩ := ih
    cases hstep with
    | create caller tok amt price buyer now offerId _ hc =>
      obtain ⟨-, -, -, -, -, -, -, hcnt, hid, b2, -, hst⟩ := createOffer_ok hc
      subst hst
      refine ⟨⟨hel, heu⟩, ?_, ?_, ?_⟩
      · intro a
        dsimp only
        by_cases ha : a = caller
        · rw [if_pos ha]
          exact hcnt
        · rw [if_neg ha]
          exact hdc a
      · intro i hi
        dsimp only at hi ⊢
        rw [if_neg (by omega)]
        exact hzero i (by omega)
      · intro i hi
        dsimp only at hi ⊢
        split
        · dsimp only
          omega
        · next hio =>
          exact hbounds i (by omega)
    | accept caller offerId busd now _ hc =>
      obtain ⟨-, -, -, -, -, b2, b3, -, -, hst⟩ := acceptOffer_ok hc
      subst hst
      refine ⟨⟨hel, heu⟩, hdc, ?_, ?_⟩
      · intro i hi
        dsimp only [flipInactive] at hi ⊢
        by_cases hio : i = offerId
        · rw [if_pos hio, ← hio, hzero i hi]
          rfl
        · rw [if_neg hio]
          exact hzero i hi
      · intro i hi
        dsimp only [flipInactive] at hi ⊢
        by_cases hio : i = offerId
        · rw [if_pos hio, ← hio]
          exact hbounds i hi
        · rw [if_neg hio]
          exact hbounds i hi
    | cancel caller offerId _ hc =>
      obtain ⟨-, -, -, b2, -, hst⟩ := cancelOffer_ok hc
      subst hst
      refine ⟨⟨hel, heu⟩, hdc, ?_, ?_⟩
      · intro i hi
        dsimp only [flipInactive] at hi ⊢
        by_cases hio : i = offerId
        · rw [if_pos hio, ← hio, hzero i hi]
          rfl
        · rw [if_neg hio]
          exact hzero i hi
      · intro i hi
        dsimp only [flipInactive] at hi ⊢
        by_cases hio : i = offerId
        · rw [if_pos hio, ← hio]
          exact hbounds i hi
        · rw [if_neg hio]
          exact hbounds i hi
    | reclaim caller offerId now _ hc =>
      obtain ⟨-, -, b2, -, hst⟩ := reclaimExpired_ok hc
      subst hst
      refine ⟨⟨hel, heu⟩, hdc, ?_, ?_⟩
      · intro i hi
        dsimp only [flipInactive] at hi ⊢
        by_cases hio : i = offerId
        · rw [if_pos hio, ← hio, hzero i hi]
          rfl
        · rw [if_neg hio]
          exact hzero i hi
      · intro i hi
        dsimp only [flipInactive] at hi ⊢
        by_cases hio : i = offerId
        · rw [if_pos hio, ← hio]
          exact hbounds i hi
        · rw [if_neg hio]
          exact hbounds i hi
    | updateExpiry caller newT _ hc =>
      obtain ⟨-, hlo, hhi, hst⟩ := updateExpiryTime_ok hc
      subst hst
      exact ⟨⟨hlo, hhi⟩, hdc, hzero, hbounds⟩
    | doPause caller _ hc =>
      rw [pause_ok hc]
      exact ⟨⟨hel, heu⟩, hdc, hzero, hbounds⟩
    | doUnpause caller _ hc =>
      rw [unpause_ok hc]
      exact ⟨⟨hel, heu⟩, hdc, hzero, hbounds⟩
    | withdraw caller token amount dst _ hc =>
      obtain ⟨b2, -, hst⟩ := emergencyWithdraw_ok hc
      subst hst
      exact ⟨⟨hel, heu⟩, hdc, hzero, hbounds⟩
    | externTransfer b =>
      exact ⟨⟨hel, heu⟩, hdc, hzero, hbounds⟩

end EW

namespace EW

theorem ops_notActive {st : State} {caller i busd now : Nat}
    (hp : st.paused = false) (hin : (st.offers i).active = false) :
    acceptOffer st caller i busd now = .error .notActive ∧
    cancelOffer st caller i = .error .notActive ∧
    reclaimExpired st caller i now = .error .notActive := by
  refine ⟨?_, ?_, ?_⟩
  · unfold acceptOffer
    rw [if_neg (by simp [hp]), if_pos hin]
  · unfold cancelOffer
    rw [if_neg (by simp [hp]), if_pos hin]
  · unfold reclaimExpired
    rw [if_pos hin]

end EW

/-- Claim C2: for every offer, at most one of `acceptOffer`, `cancelOffer`
and `reclaimExpired` can ever succeed on it.  Spelled out: (i) each of the
three operations succeeds only on an Active offer and leaves it in the
terminal (inactive) state; (ii) no contract operation ever returns a
created terminal offer to Active; (iii) each of the three operations
invoked on a non-Active offer reverts with the shared `"Offer is not
active"` state error, which by revert semantics leaves all state
unchanged. -/
theorem C2_terminal_exclusivity :
    (∀ (st : EW.State) (caller offerId busd now : Nat) (st2 : EW.State),
        EW.acceptOffer st caller offerId busd now = .ok st2 →
        (st.offers offerId).active = true ∧ (st2.offers offerId).active = false) ∧
    (∀ (st : EW.State) (caller offerId : Nat) (st2 : EW.State),
        EW.cancelOffer st caller offerId = .ok st2 →
        (st.offers offerId).active = true ∧ (st2.offers offerId).active = false) ∧
    (∀ (st : EW.State) (caller offerId now : Nat) (st2 : EW.State),
        EW.reclaimExpired st caller offerId now = .ok st2 →
        (st.offers offerId).active = true ∧ (st2.offers offerId).active = false) ∧
    (∀ (st st2 : EW.State), EW.Step st st2 → ∀ i, i < st.offerIdCounter →
        (st.offers i).active = false → (st2.offers i).active = false) ∧
    (∀ (st : EW.State) (caller offerId busd now : Nat),
        st.paused = false → (st.offers offerId).active = false →
        EW.acceptOffer st caller offerId busd now = .error .notActive ∧
        EW.cancelOffer st caller offerId = .error .notActive ∧
        EW.reclaimExpired st caller offerId now = .error .notActive) := by
  refine ⟨?_, ?_, ?_, ?_, ?_⟩
  · intro st caller offerId busd now st2 h
    obtain ⟨-, hact, -, -, -, b2, b3, -, -, hst⟩ := EW.acceptOffer_ok h
    subst hst
    refine ⟨hact, ?_⟩
    dsimp only [EW.flipInactive]
    rw [if_pos rfl]
  · intro st caller offerId st2 h
    obtain ⟨-, hact, -, b2, -, hst⟩ := EW.cancelOffer_ok h
    subst hst
    refine ⟨hact, ?_⟩
    dsimp only [EW.flipInactive]
    rw [if_pos rfl]
  · intro st caller offerId now st2 h
    obtain ⟨hact, -, b2, -, hst⟩ := EW.reclaimExpired_ok h
    subst hst
    refine ⟨hact, ?_⟩
    dsimp only [EW.flipInactive]
    rw [if_pos rfl]
  · intro st st2 h i hi hin
    exact EW.step_preserves_inactive h i hi hin
  · intro st caller offerId busd now hp hin
    exact EW.ops_notActive hp hin

theorem C2_terminal_exclusivity_witness :
    EW.acceptOffer (EW.initState 2 1 (fun _ _ => 100)) 11 0 6 50 =
      .error .notActive ∧
    EW.cancelOffer (EW.initState 2 1 (fun _ _ => 100)) 10 0 = .error .notActive ∧
    EW.reclaimExpired (EW.initState 2 1 (fun _ _ => 100)) 7 0 50 =
      .error .notActive := by
  have h := C2_terminal_exclusivity.2.2.2.2 (EW.initState 2 1 (fun _ _ => 100))
    10 0 6 50 rfl rfl
  exact ⟨(C2_terminal_exclusivity.2.2.2.2 _ 11 0 6 50 rfl rfl).1, h.2.1,
    (C2_terminal_exclusivity.2.2.2.2 _ 7 0 6 50 rfl rfl).2.2⟩

/-- Claim C9: every offer created through `EscrowWithExpiry` carries the
finite expiry `createdAt + offerExpiryTime`; `offerExpiryTime` starts at
the 15-minute default and a successful `updateExpiryTime` only ever
installs a value in `[1 minute, 24 hours]` = `[60, 86400]` seconds, so in
every reachable state `offerExpiryTime` lies in that range and every
created offer satisfies `createdAt + 60 ≤ expiresAt ≤ createdAt + 86400`
(hence becomes reclaimable at most 24 hours after creation). -/
theorem C9_expiry_always_bounded :
    (∀ (self owner : Nat) (bal : Balances),
        (EW.initState self owner bal).offerExpiryTime = EW.DEFAULT_EXPIRY_TIME ∧
        EW.DEFAULT_EXPIRY_TIME = 900) ∧
    (∀ (st : EW.State) (caller tok amt price buyer now offerId : Nat)
        (st2 : EW.State),
        EW.createOffer st caller tok amt price buyer now = .ok (offerId, st2) →
        (st2.offers offerId).expiresAt = now + st.offerExpiryTime ∧
        (st2.offers offerId).createdAt = now) ∧
    (∀ (st : EW.State) (caller newT : Nat) (st2 : EW.State),
        EW.updateExpiryTime st caller newT = .ok st2 →
        60 ≤ newT ∧ newT ≤ 86400 ∧ st2.offerExpiryTime = newT) ∧
    (∀ st : EW.State, EW.Reachable st →
        (60 ≤ st.offerExpiryTime ∧ st.offerExpiryTime ≤ 86400) ∧
        ∀ i, i < st.offerIdCounter →
          (st.offers i).createdAt + 60 ≤ (st.offers i).expiresAt ∧
          (st.offers i).expiresAt ≤ (st.offers i).createdAt + 86400) := by
  refine ⟨?_, ?_, ?_, ?_⟩
  · intro self owner bal
    exact ⟨rfl, rfl⟩
  · intro st caller tok amt price buyer now offerId st2 h
    obtain ⟨-, -, -, -, -, -, -, -, hid, b2, -, hst⟩ := EW.createOffer_ok h
    subst hst
    subst hid
    dsimp only
    rw [if_pos rfl]
    exact ⟨rfl, rfl⟩
  · intro st caller newT st2 h
    obtain ⟨-, hlo, hhi, hst⟩ := EW.updateExpiryTime_ok h
    subst hst
    exact ⟨hlo, hhi, rfl⟩
  · intro st h
    obtain ⟨he, -, -, hb⟩ := EW.reachable_inv h
    exact ⟨he, hb⟩

theorem C9_expiry_always_bounded_witness :
    (EW.initState 2 1 (fun _ _ => 100)).offerExpiryTime = EW.DEFAULT_EXPIRY_TIME ∧
    60 ≤ (EW.initState 2 1 (fun _ _ => 100)).offerExpiryTime ∧
    (EW.initState 2 1 (fun _ _ => 100)).offerExpiryTime ≤ 86400 :=
  ⟨(C9_expiry_always_bounded.1 2 1 (fun _ _ => 100)).1,
   ((C9_expiry_always_bounded.2.2.2 _ (EW.Reachable.init 2 1 (fun _ _ => 100))).1).1,
   ((C9_expiry_always_bounded.2.2.2 _ (EW.Reachable.init 2 1 (fun _ _ => 100))).1).2⟩

/-- Claim C10: for an offer id that was never created (id at or beyond the
counter in a reachable state) `getOffer` returns the all-zero record,
`isExpired` returns `true` whenever the clock is positive (the default
`expiresAt = 0` is in the past), `getTimeRemaining` returns `0`, and the
three mutating operations revert with the same `"Offer is not active"`
error that terminal offers produce — there is no distinct not-found
error. -/
theorem C10_missing_offer_behavior :
    (∀ st : EW.State, EW.Reachable st → ∀ i, st.offerIdCounter ≤ i →
      EW.getOffer st i = EW.zeroOffer ∧
      (∀ now, 0 < now → EW.isExpired st i now = true) ∧
      (∀ now, EW.getTimeRemaining st i now = 0) ∧
      (∀ caller busd now, st.paused = false →
        EW.acceptOffer st caller i busd now = .error .notActive ∧
        EW.cancelOffer st caller i = .error .notActive ∧
        EW.reclaimExpired st caller i now = .error .notActive)) ∧
    (∀ (st : EW.State) (caller i busd now : Nat),
      st.paused = false → (st.offers i).active = false →
      EW.acceptOffer st caller i busd now = .error .notActive ∧
      EW.cancelOffer st caller i = .error .notActive ∧
      EW.reclaimExpired st caller i now = .error .notActive) := by
  refine ⟨?_, ?_⟩
  · intro st h i hi
    obtain ⟨-, -, hzero, -⟩ := EW.reachable_inv h
    have hz : st.offers i = EW.zeroOffer := hzero i hi
    refine ⟨hz, ?_, ?_, ?_⟩
    · intro now hnow
      simp [EW.isExpired, hz, EW.zeroOffer, hnow]
    · intro now
      simp [EW.getTimeRemaining, hz, EW.zeroOffer]
    · intro caller busd now hp
      exact EW.ops_notActive hp (by rw [hz]; rfl)
  · intro st caller i busd now hp hin
    exact EW.ops_notActive hp hin

theorem C10_missing_offer_behavior_witness :
    EW.getOffer (EW.initState 2 1 (fun _ _ => 100)) 0 = EW.zeroOffer ∧
    EW.isExpired (EW.initState 2 1 (fun _ _ => 100)) 0 5 = true ∧
    EW.getTimeRemaining (EW.initState 2 1 (fun _ _ => 100)) 0 5 = 0 ∧
    EW.acceptOffer (EW.initState 2 1 (fun _ _ => 100)) 11 0 6 5 =
      .error .notActive := by
  obtain ⟨hz, hexp, hrem, hops⟩ :=
    C10_missing_offer_behavior.1 _ (EW.Reachable.init 2 1 (fun _ _ => 100)) 0
      (le_refl 0)
  exact ⟨hz, hexp 5 (by norm_num), hrem 5, (hops 11 6 5 rfl).1⟩

namespace EW

theorem accept_ok_balances {st : State} {caller offerId busd now : Nat} {st2 : State}
    (h : acceptOffer st caller offerId busd now = .ok st2)
    (hcs : caller ≠ (st.offers offerId).seller)
    (hcself : caller ≠ st.self)
    (htb : (st.offers offerId).tokenAddress ≠ busd) :
    st2.bal busd (st.offers offerId).seller
      = st.bal busd (st.offers offerId).seller + (st.offers offerId).priceInBUSD ∧
    st2.bal busd caller = st.bal busd caller - (st.offers offerId).priceInBUSD ∧
    st2.bal (st.offers offerId).tokenAddress caller
      = st.bal (st.offers offerId).tokenAddress caller + (st.offers offerId).amount ∧
    st2.bal (st.offers offerId).tokenAddress st.self
      = st.bal (st.offers offerId).tokenAddress st.self - (st.offers offerId).amount ∧
    (st.offers offerId).priceInBUSD ≤ st.bal busd caller ∧
    (st.offers offerId).amount ≤ st.bal (st.offers offerId).tokenAddress st.self := by
  obtain ⟨-, -, -, -, -, b2, b3, ht1, ht2, hst⟩ := acceptOffer_ok h
  subst hst
  have hb2seller : b2 busd (st.offers offerId).seller
      = st.bal busd (st.offers offerId).seller + (st.offers offerId).priceInBUSD :=
    Ledger.transfer_dst_bal ht1 (Ne.symm hcs)
  have hb2caller : b2 busd caller
      = st.bal busd caller - (st.offers offerId).priceInBUSD :=
    Ledger.transfer_src_bal ht1 (Ne.symm hcs)
  have hb2tok : ∀ a, b2 (st.offers offerId).tokenAddress a
      = st.bal (st.offers offerId).tokenAddress a :=
    fun a => Ledger.transfer_frame ht1 _ a (Or.inl htb)
  have hb3busd : ∀ a, b3 busd a = b2 busd a :=
    fun a => Ledger.transfer_frame ht2 busd a (Or.inl (Ne.symm htb))
  have hb3caller : b3 (st.offers offerId).tokenAddress caller
      = b2 (st.offers offerId).tokenAddress caller + (st.offers offerId).amount :=
    Ledger.transfer_dst_bal ht2 hcself
  have hb3self : b3 (st.offers offerId).tokenAddress st.self
      = b2 (st.offers offerId).tokenAddress st.self - (st.offers offerId).amount :=
    Ledger.transfer_src_bal ht2 hcself
  have hle1 : (st.offers offerId).priceInBUSD ≤ st.bal busd caller :=
    Ledger.transfer_le ht1
  have hle2 : (st.offers offerId).amount
      ≤ st.bal (st.offers offerId).tokenAddress st.self := by
    have := Ledger.transfer_le ht2
    rwa [hb2tok st.self] at this
  refine ⟨?_, ?_, ?_, ?_, hle1, hle2⟩
  · show b3 busd (st.offers offerId).seller = _
    rw [hb3busd, hb2seller]
  · show b3 busd caller = _
    rw [hb3busd, hb2caller]
  · show b3 (st.offers offerId).tokenAddress caller = _
    rw [hb3caller, hb2tok]
  · show b3 (st.offers offerId).tokenAddress st.self = _
    rw [hb3self, hb2tok]

theorem step_preserves_offer_core {st st2 : State} (h : Step st st2) :
    ∀ i, i < st.offerIdCounter →
      (st2.offers i).amount = (st.offers i).amount ∧
      (st2.offers i).seller = (st.offers i).seller ∧
      (st2.offers i).buyer = (st.offers i).buyer ∧
      (st2.offers i).tokenAddress = (st.offers i).tokenAddress := by
  cases h with
  | create caller tok amt price buyer now offerId _ hc =>
    intro i hi
    obtain ⟨-, -, -, -, -, -, -, -, -, b2, -, hst⟩ := createOffer_ok hc
    subst hst
    dsimp only
    rw [if_neg (by omega)]
    exact ⟨rfl, rfl, rfl, rfl⟩
  | accept caller offerId busd now _ hc =>
    intro i hi
    obtain ⟨-, -, -, -, -, b2, b3, -, -, hst⟩ := acceptOffer_ok hc
    subst hst
    dsimp only [flipInactive]
    by_cases hio : i = offerId
    · subst hio
      rw [if_pos rfl]
      exact ⟨rfl, rfl, rfl, rfl⟩
    · rw [if_neg hio]
      exact ⟨rfl, rfl, rfl, rfl⟩
  | cancel caller offerId _ hc =>
    intro i hi
    obtain ⟨-, -, -, b2, -, hst⟩ := cancelOffer_ok hc
    subst hst
    dsimp only [flipInactive]
    by_cases hio : i = offerId
    · subst hio
      rw [if_pos rfl]
      exact ⟨rfl, rfl, rfl, rfl⟩
    · rw [if_neg hio]
      exact ⟨rfl, rfl, rfl, rfl⟩
  | reclaim caller offerId now _ hc =>
    intro i hi
    obtain ⟨-, -, b2, -, hst⟩ := reclaimExpired_ok hc
    subst hst
    dsimp only [flipInactive]
    by_cases hio : i = offerId
    · subst hio
      rw [if_pos rfl]
      exact ⟨rfl, rfl, rfl, rfl⟩
    · rw [if_neg hio]
      exact ⟨rfl, rfl, rfl, rfl⟩
  | updateExpiry caller newT _ hc =>
    intro i hi
    obtain ⟨-, -, -, hst⟩ := updateExpiryTime_ok hc
    subst hst
    exact ⟨rfl, rfl, rfl, rfl⟩
  | doPause caller _ hc =>
    intro i hi
    rw [pause_ok hc]
    exact ⟨rfl, rfl, rfl, rfl⟩
  | doUnpause caller _ hc =>
    intro i hi
    rw [unpause_ok hc]
    exact ⟨rfl, rfl, rfl, rfl⟩
  | withdraw caller token amount dst _ hc =>
    intro i hi
    obtain ⟨b2, -, hst⟩ := emergencyWithdraw_ok hc
    subst hst
    exact ⟨rfl, rfl, rfl, rfl⟩
  | externTransfer b =>
    intro i hi
    exact ⟨rfl, rfl, rfl, rfl⟩

end EW

/-- Claim C3: conservation of escrowed funds and authorization.  At
creation exactly `amount` of the offered asset moves from the seller into
engine custody and is recorded in the offer; the recorded parties and
amount are immutable across all operations; on acceptance exactly that
`amount` moves from engine custody to the designated buyer (and the quote
payment from buyer to seller); on cancel or expiry-reclaim exactly that
`amount` moves back to the seller.  `acceptOffer` succeeds only for the
designated buyer, `cancelOffer` only for the seller, and `reclaimExpired`
only when `now > expiresAt`.  (The account-separation hypotheses say the
involved accounts and the two assets are distinct, as they are for
distinct ERC20 contracts and externally-owned accounts.) -/
theorem C3_conservation_authorization :
    (∀ (st : EW.State) (caller tok amt price buyer now offerId : Nat)
        (st2 : EW.State),
        EW.createOffer st caller tok amt price buyer now = .ok (offerId, st2) →
        (st2.offers offerId).amount = amt ∧
        (st2.offers offerId).seller = caller ∧
        (st2.offers offerId).buyer = buyer ∧
        (st2.offers offerId).tokenAddress = tok ∧
        (caller ≠ st.self →
          amt ≤ st.bal tok caller ∧
          st2.bal tok caller = st.bal tok caller - amt ∧
          st2.bal tok st.self = st.bal tok st.self + amt)) ∧
    (∀ (st st2 : EW.State), EW.Step st st2 → ∀ i, i < st.offerIdCounter →
        (st2.offers i).amount = (st.offers i).amount ∧
        (st2.offers i).seller = (st.offers i).seller ∧
        (st2.offers i).buyer = (st.offers i).buyer ∧
        (st2.offers i).tokenAddress = (st.offers i).tokenAddress) ∧
    (∀ (st : EW.State) (caller offerId busd now : Nat) (st2 : EW.State),
        EW.acceptOffer st caller offerId busd now = .ok st2 →
        caller = (st.offers offerId).buyer ∧
        (caller ≠ (st.offers offerId).seller → caller ≠ st.self →
         (st.offers offerId).tokenAddress ≠ busd →
          st2.bal (st.offers offerId).tokenAddress caller
            = st.bal (st.offers offerId).tokenAddress caller
              + (st.offers offerId).amount ∧
          st2.bal (st.offers offerId).tokenAddress st.self
            = st.bal (st.offers offerId).tokenAddress st.self
              - (st.offers offerId).amount ∧
          st2.bal busd (st.offers offerId).seller
            = st.bal busd (st.offers offerId).seller
              + (st.offers offerId).priceInBUSD ∧
          st2.bal busd caller
            = st.bal busd caller - (st.offers offerId).priceInBUSD)) ∧
    (∀ (st : EW.State) (caller offerId : Nat) (st2 : EW.State),
        EW.cancelOffer st caller offerId = .ok st2 →
        caller = (st.offers offerId).seller ∧
        (caller ≠ st.self →
          st2.bal (st.offers offerId).tokenAddress caller
            = st.bal (st.offers offerId).tokenAddress caller
              + (st.offers offerId).amount ∧
          st2.bal (st.offers offerId).tokenAddress st.self
            = st.bal (st.offers offerId).tokenAddress st.self
              - (st.offers offerId).amount)) ∧
    (∀ (st : EW.State) (caller offerId now : Nat) (st2 : EW.State),
        EW.reclaimExpired st caller offerId now = .ok st2 →
        (st.offers offerId).expiresAt < now ∧
        ((st.offers offerId).seller ≠ st.self →
          st2.bal (st.offers offerId).tokenAddress (st.offers offerId).seller
            = st.bal (st.offers offerId).tokenAddress (st.offers offerId).seller
              + (st.offers offerId).amount ∧
          st2.bal (st.offers offerId).tokenAddress st.self
            = st.bal (st.offers offerId).tokenAddress st.self
              - (st.offers offerId).amount)) := by
  refine ⟨?_, ?_, ?_, ?_, ?_⟩
  · intro st caller tok amt price buyer now offerId st2 h
    obtain ⟨-, -, -, -, -, -, -, -, hid, b2, htr, hst⟩ := EW.createOffer_ok h
    subst hst
    subst hid
    dsimp only
    rw [if_pos rfl]
    refine ⟨rfl, rfl, rfl, rfl, ?_⟩
    intro hcself
    refine ⟨Ledger.transfer_le htr, ?_, ?_⟩
    · exact Ledger.transfer_src_bal htr (Ne.symm hcself)
    · exact Ledger.transfer_dst_bal htr (Ne.symm hcself)
  · intro st st2 h i hi
    exact EW.step_preserves_offer_core h i hi
  · intro st caller offerId busd now st2 h
    obtain ⟨-, -, hbuyer, -, -, -, -, -, -, -⟩ := EW.acceptOffer_ok h
    refine ⟨hbuyer, ?_⟩
    intro hcs hcself htb
    obtain ⟨hb1, hb2, hb3, hb4, -, -⟩ := EW.accept_ok_balances h hcs hcself htb
    exact ⟨hb3, hb4, hb1, hb2⟩
  · intro st caller offerId st2 h
    obtain ⟨-, -, hseller, b2, htr, hst⟩ := EW.cancelOffer_ok h
    subst hst
    refine ⟨hseller, ?_⟩
    intro hcself
    constructor
    · show b2 _ caller = _
      exact Ledger.transfer_dst_bal htr hcself
    · show b2 _ st.self = _
      exact Ledger.transfer_src_bal htr hcself
  · intro st caller offerId now st2 h
    obtain ⟨-, hexp, b2, htr, hst⟩ := EW.reclaimExpired_ok h
    subst hst
    refine ⟨hexp, ?_⟩
    intro hsself
    constructor
    · show b2 _ _ = _
      exact Ledger.transfer_dst_bal htr hsself
    · show b2 _ st.self = _
      exact Ledger.transfer_src_bal htr hsself

theorem C3_conservation_authorization_witness :
    ∃ st2 : EW.State,
      EW.createOffer (EW.initState 2 1 c3bal) 10 5 7 9 11 100 = .ok (0, st2) ∧
      (st2.offers 0).amount = 7 ∧
      st2.bal 5 10 = c3bal 5 10 - 7 ∧
      st2.bal 5 2 = c3bal 5 2 + 7 := by
  refine ⟨_, rfl, ?_⟩
  have h := (C3_conservation_authorization.1 (EW.initState 2 1 c3bal)
    10 5 7 9 11 100 0 _ rfl)
  exact ⟨h.1, (h.2.2.2.2 (by decide)).2.1, (h.2.2.2.2 (by decide)).2.2⟩

namespace Esc

theorem escFlipInactive_bal (st : State) (i : Nat) :
    (flipInactive st i).bal = st.bal := rfl

theorem escFlipInactive_offer_at (st : State) (i : Nat) :
    (flipInactive st i).offers i = { st.offers i with active := false } := by
  simp [flipInactive]

end Esc

/-- Claim C1: in `acceptOffer` (both in `Escrow` and `EscrowWithExpiry`)
the offer status is flipped to the settled/inactive state before either
transfer is performed; then the quote payment moves from buyer to seller
and then the escrowed tokens move from engine custody to the buyer (the
two transfers, in this order, are exactly `settleTransfers` run on the
already-flipped state); and if the buyer-to-seller payment cannot be
covered, the whole call reverts with the transfer error, so the caller
observes the pre-call state — the offer still Active, all balances
untouched (`runTx` returns the pre-state). -/
theorem C1_accept_order_and_atomicity :
    (∀ (st : EW.State) (caller offerId busd now : Nat),
      st.paused = false → (st.offers offerId).active = true →
      caller = (st.offers offerId).buyer → busd ≠ 0 →
      now ≤ (st.offers offerId).expiresAt →
      (EW.acceptOffer st caller offerId busd now =
        EW.settleTransfers (EW.flipInactive st offerId) caller busd
          (st.offers offerId) ∧
       ((EW.flipInactive st offerId).offers offerId).active = false) ∧
      (st.bal busd caller < (st.offers offerId).priceInBUSD →
        EW.acceptOffer st caller offerId busd now = .error .insufficientBalance ∧
        EW.runTx st (fun s => EW.acceptOffer s caller offerId busd now) = st)) ∧
    (∀ (st : EW.State) (caller offerId busd now : Nat) (st2 : EW.State),
      EW.acceptOffer st caller offerId busd now = .ok st2 →
      (st2.offers offerId).active = false ∧
      (caller ≠ (st.offers offerId).seller → caller ≠ st.self →
       (st.offers offerId).tokenAddress ≠ busd →
        st2.bal busd (st.offers offerId).seller
          = st.bal busd (st.offers offerId).seller
            + (st.offers offerId).priceInBUSD ∧
        st2.bal (st.offers offerId).tokenAddress caller
          = st.bal (st.offers offerId).tokenAddress caller
            + (st.offers offerId).amount)) ∧
    (∀ (st : Esc.State) (caller offerId busd : Nat),
      st.paused = false → (st.offers offerId).active = true →
      caller = (st.offers offerId).buyer → busd ≠ 0 →
      (Esc.acceptOffer st caller offerId busd =
        Esc.settleTransfers (Esc.flipInactive st offerId) caller busd
          (st.offers offerId) ∧
       ((Esc.flipInactive st offerId).offers offerId).active = false) ∧
      (st.bal busd caller < (st.offers offerId).priceInBUSD →
        Esc.acceptOffer st caller offerId busd = .error .insufficientBalance ∧
        Esc.runTx st (fun s => Esc.acceptOffer s caller offerId busd) = st)) := by
  refine ⟨?_, ?_, ?_⟩
  · intro st caller offerId busd now hp hact hbuyer hbusd hexp
    have heq : EW.acceptOffer st caller offerId busd now =
        EW.settleTransfers (EW.flipInactive st offerId) caller busd
          (st.offers offerId) := by
      unfold EW.acceptOffer
      rw [if_neg (by simp [hp]), if_neg (by simp [hact]),
        if_neg (by simp [hbuyer]), if_neg hbusd, if_neg (not_lt.mpr hexp)]
    refine ⟨⟨heq, by rw [EW.flipInactive_offer_at]⟩, ?_⟩
    intro hlt
    have hn : Ledger.transfer st.bal busd caller (st.offers offerId).seller
        (st.offers offerId).priceInBUSD = none :=
      (Ledger.transfer_none_iff _ _ _ _ _).mpr hlt
    have herr : EW.acceptOffer st caller offerId busd now =
        .error .insufficientBalance := by
      rw [heq]
      unfold EW.settleTransfers
      rw [EW.flipInactive_bal, hn]
    refine ⟨herr, ?_⟩
    unfold EW.runTx
    dsimp only
    rw [herr]
  · intro st caller offerId busd now st2 h
    obtain ⟨-, -, -, -, -, b2, b3, -, -, hst⟩ := EW.acceptOffer_ok h
    constructor
    · rw [hst]
      dsimp only [EW.flipInactive]
      rw [if_pos rfl]
    · intro hcs hcself htb
      obtain ⟨hb1, -, hb3, -, -, -⟩ := EW.accept_ok_balances h hcs hcself htb
      exact ⟨hb1, hb3⟩
  · intro st caller offerId busd hp hact hbuyer hbusd
    have heq : Esc.acceptOffer st caller offerId busd =
        Esc.settleTransfers (Esc.flipInactive st offerId) caller busd
          (st.offers offerId) := by
      unfold Esc.acceptOffer
      rw [if_neg (by simp [hp]), if_neg (by simp [hact]),
        if_neg (by simp [hbuyer]), if_neg hbusd]
    refine ⟨⟨heq, by rw [Esc.escFlipInactive_offer_at]⟩, ?_⟩
    intro hlt
    have hn : Ledger.transfer st.bal busd caller (st.offers offerId).seller
        (st.offers offerId).priceInBUSD = none :=
      (Ledger.transfer_none_iff _ _ _ _ _).mpr hlt
    have herr : Esc.acceptOffer st caller offerId busd =
        .error .insufficientBalance := by
      rw [heq]
      unfold Esc.settleTransfers
      rw [Esc.escFlipInactive_bal, hn]
    refine ⟨herr, ?_⟩
    unfold Esc.runTx
    dsimp only
    rw [herr]

theorem C1_accept_order_and_atomicity_witness :
    (EW.acceptOffer c1st 11 0 6 500 = .error .insufficientBalance ∧
     EW.runTx c1st (fun s => EW.acceptOffer s 11 0 6 500) = c1st) ∧
    (Esc.acceptOffer c1stE 11 0 6 = .error .insufficientBalance ∧
     Esc.runTx c1stE (fun s => Esc.acceptOffer s 11 0 6) = c1stE) :=
  ⟨(C1_accept_order_and_atomicity.1 c1st 11 0 6 500 rfl (by decide) (by decide)
      (by decide) (by decide)).2 (by decide),
   (C1_accept_order_and_atomicity.2.2 c1stE 11 0 6 rfl (by decide) (by decide)
      (by decide)).2 (by decide)⟩

/-! Claim C6: the daily rate-limit window. -/

/-- Counterexample to claim C6 as stated: on the trace with offers at
times 100, 50000 and 86500, the third call satisfies
`now = 86500 ≥ windowStart + 1 day` for any window anchored at the first
offer (100 + 86400 = 86500), so under the claim the counter would have
been reset and would read 1 — but the code keys the reset on
`lastOfferTime + 1 day = 50000 + 86400`, does not reset, and the counter
reads 3. -/
theorem C6_counterexample :
    c6codeCount = .ok 3 ∧
    (c6specRun.map fun w => w.windowCount) = some 1 ∧
    (100 : Nat) + 86400 ≤ 86500 ∧ (3 : Nat) ≠ 1 :=
  ⟨rfl, rfl, by norm_num, by norm_num⟩

/-- Claim C6 (amended): the per-seller daily counter is reset exactly when
`now ≥ lastOfferTime[seller] + 1 day` — one day after the seller's *most
recent* offer (a sliding inactivity window), not one day after the window
began; the counter never exceeds `MAX_OFFERS_PER_DAY = 50` in any
reachable state; and `createOffer` rejects with the daily-limit error
whenever less than one day has passed since the last offer and the counter
has reached the cap, the reset happening lazily inside the first
successful call at least one day after the previous offer. -/
theorem C6_amended_sliding_window :
    (∀ (st : EW.State) (caller tok amt price buyer now offerId : Nat)
        (st2 : EW.State),
        EW.createOffer st caller tok amt price buyer now = .ok (offerId, st2) →
        st2.dailyOfferCount caller =
          (if st.lastOfferTime caller + 86400 ≤ now then 0
           else st.dailyOfferCount caller) + 1 ∧
        st2.lastOfferTime caller = now) ∧
    (∀ (st : EW.State) (caller tok amt price buyer now : Nat),
        st.paused = false → tok ≠ 0 → amt ≠ 0 → price ≠ 0 → buyer ≠ 0 →
        buyer ≠ caller → st.lastOfferTime caller + EW.OFFER_COOLDOWN ≤ now →
        now < st.lastOfferTime caller + 86400 →
        EW.MAX_OFFERS_PER_DAY ≤ st.dailyOfferCount caller →
        EW.createOffer st caller tok amt price buyer now = .error .dailyLimit) ∧
    (∀ st : EW.State, EW.Reachable st →
        ∀ a, st.dailyOfferCount a ≤ EW.MAX_OFFERS_PER_DAY) := by
  refine ⟨?_, ?_, ?_⟩
  · intro st caller tok amt price buyer now offerId st2 h
    obtain ⟨-, -, -, -, -, -, -, -, -, b2, -, hst⟩ := EW.createOffer_ok h
    subst hst
    dsimp only
    rw [if_pos rfl, if_pos rfl]
    exact ⟨rfl, rfl⟩
  · intro st caller tok amt price buyer now hp htok hamt hprice hbuyer hbs hcool hday hcnt
    unfold EW.createOffer
    have hr : (if st.lastOfferTime caller + 86400 ≤ now then 0
        else st.dailyOfferCount caller) = st.dailyOfferCount caller :=
      if_neg (by omega)
    rw [if_neg (by simp [hp]), if_neg htok, if_neg hamt, if_neg hprice,
      if_neg hbuyer, if_neg hbs, if_neg (not_lt.mpr hcool), hr, if_pos hcnt]
  · intro st h a
    exact (EW.reachable_inv h).2.1 a

theorem C6_amended_sliding_window_witness :
    ∃ st2 : EW.State,
      EW.createOffer c6st0 10 5 7 9 11 100 = .ok (0, st2) ∧
      st2.dailyOfferCount 10 = 1 ∧ st2.lastOfferTime 10 = 100 := by
  refine ⟨_, rfl, ?_, ?_⟩
  · have h := (C6_amended_sliding_window.1 c6st0 10 5 7 9 11 100 0 _ rfl).1
    rw [h]
    decide
  · exact (C6_amended_sliding_window.1 c6st0 10 5 7 9 11 100 0 _ rfl).2
